import Mathlib

/-
Verification development for the canvas particle system of the Clientes
repository (src/assets/modules/particles.js, src/assets/scripts.js,
src/unnamed/part_010).

Embedding conventions:
* JavaScript numbers are modelled as rationals (ℚ).  `Math.sqrt` is not
  rational-valued, so every function that calls it takes an explicit
  parameter `sq : ℚ → ℚ` standing for `Math.sqrt`; theorems that depend on
  the value of a square root assume its defining property at exactly the
  arguments the code passes to it (`SqOkAt`).  Concrete witnesses use inputs
  whose square roots are rational, together with a table function that is
  exact there.
* Every call to `Math.random()` becomes an explicit parameter.  The random
  draw structures below carry one field per `Math.random()` call site of the
  corresponding source function, in source order.  Where the code feeds a
  random angle into `Math.cos`/`Math.sin`, the parameters `cosA`/`sinA`
  stand for the cosine/sine of that sampled angle (so ‹cosA² + sinA² = 1›
  whenever trigonometric facts are needed), and `rotR` stands for the
  sampled value `Math.random() * PI2` itself.
* JavaScript arrays are Lean lists in the same order: `push` appends at the
  end, `pop` removes the last element, `shift` removes the head.
* JavaScript object identity is made explicit by an `id : ℕ` field assigned
  when a particle object is constructed (`new Particle()`); `init` mutates
  an existing object and therefore keeps its `id`.
* Rendering (`draw`, canvas context calls) has no effect on simulation
  state and is not embedded.
-/

set_option autoImplicit false

namespace Clientes

/-- Particle kinds appearing across the repository's variants
(`'cube'`, `'dust'`, `'spark'`). -/
inductive PType where
  | cube
  | dust
  | spark
deriving DecidableEq, Repr

/-- The particle record: union of the mutable fields the variants assign
(`this.x`, `this.y`, …) plus the explicit identity `id`. -/
structure Particle where
  id : ℕ
  ptype : PType
  color : String
  x : ℚ
  y : ℚ
  vx : ℚ
  vy : ℚ
  size : ℚ
  mass : ℚ
  lifeDecay : ℚ
  isoHeight : ℚ
  life : ℚ
  rotation : ℚ
  rotationSpeed : ℚ
  scale : ℚ
  targetScale : ℚ
  grounded : Bool
  active : Bool
deriving DecidableEq, Repr

/-- `constructor() { this.active = false; }` — a fresh object with identity
`nid`; all numeric fields start unset (modelled as 0), `active = false`. -/
def Particle.new (nid : ℕ) : Particle :=
  { id := nid, ptype := PType.cube, color := "", x := 0, y := 0, vx := 0,
    vy := 0, size := 0, mass := 0, lifeDecay := 0, isoHeight := 0, life := 0,
    rotation := 0, rotationSpeed := 0, scale := 0, targetScale := 0,
    grounded := false, active := false }

/-- The `mouse` singleton of particles.js (first variant). -/
structure Mouse where
  x : ℚ
  y : ℚ
  prevX : ℚ
  prevY : ℚ
  vx : ℚ
  vy : ℚ
  isDown : Bool
  lastSpawnX : ℚ
  lastSpawnY : ℚ
deriving DecidableEq, Repr

/-- Random draws consumed by `Particle.init` (one field per `Math.random()`
call site; `cosA`/`sinA` are the cosine/sine of the sampled angle and
`rotR` the sampled `Math.random() * PI2`). -/
structure InitRnd where
  sizeVariant : ℚ
  sizeR : ℚ
  decayR : ℚ
  rotR : ℚ
  rotSpeedR : ℚ
  cosA : ℚ
  sinA : ℚ
  speedR : ℚ
deriving DecidableEq, Repr

/-- Random draws for one iteration of `spawnExplosion`'s loop (the sampled
angle `(i / actualCount) * 2π + random() * 0.4` enters only through
`cosA`/`sinA`). -/
structure SpawnRnd where
  cosA : ℚ
  sinA : ℚ
  radiusR : ℚ
  colorR : ℚ
  intensityR : ℚ
  init : InitRnd
deriving DecidableEq, Repr

/-- Random draws for one iteration of `trySpawnOnDrag`'s loop. -/
structure DragRnd where
  jx : ℚ
  jy : ℚ
  colorR : ℚ
  init : InitRnd
deriving DecidableEq, Repr

/-- Random draws consumed by one colliding pair in `handleCollisions`. -/
structure PairRnd where
  chance : ℚ
  countR : ℚ
deriving DecidableEq, Repr

/-- An entry of the `pendingSpawns` queue. -/
structure SpawnReq where
  x : ℚ
  y : ℚ
  count : ℕ
deriving DecidableEq, Repr

/-- `SqOkAt sq s`: the parameter `sq` standing for `Math.sqrt` is correct at
the argument `s`. -/
def SqOkAt (sq : ℚ → ℚ) (s : ℚ) : Prop := 0 ≤ sq s ∧ sq s * sq s = s

/- First variant of particles.js ("Cosmic Particle System", lines 1–547). -/
namespace Cosmic

def maxParticles : ℕ := 100
def colors : List String :=
  ["#60a5fa", "#34d399", "#fbbf24", "#a78bfa", "#f472b6", "#38bdf8"]
def gravity : ℚ := 0.008
def friction : ℚ := 0.9975
def groundFriction : ℚ := 0.965
def bounciness : ℚ := 0.6
def maxVelocity : ℚ := 8
def cursorFieldRadius : ℚ := 100
def cursorFieldForce : ℚ := 0.25
def cursorMomentumTransfer : ℚ := 0.12
def spawnRadius : ℚ := 20
def clickSpawnCount : ℕ := 4
def dragSpawnDistance : ℚ := 16
def collisionSpawnChance : ℚ := 0.35
def maxCollisionSpawns : ℕ := 2

/-- `Particle.prototype.init(x, y, color, type, intensity)`.  Reads the
global `mouse.vx`/`mouse.vy`, passed here as `mvx`/`mvy`.  The object's
identity (`id`) is untouched. -/
def init (p : Particle) (x y : ℚ) (color : String) (type : PType)
    (intensity : ℚ) (mvx mvy : ℚ) (r : InitRnd) : Particle :=
  let sizeMassDecay : ℚ × ℚ × ℚ :=
    if type = PType.dust then
      (0.8 + r.sizeR * 1.5, 0.15, 0.025 + r.decayR * 0.01)
    else
      let base : ℚ :=
        if r.sizeVariant < 0.3 then 2.5 + r.sizeR * 2
        else if r.sizeVariant < 0.8 then 4 + r.sizeR * 3
        else 6 + r.sizeR * 3
      let sz := base + intensity * 1.2
      (sz, 0.3 + sz * 0.025, 0.0018 + r.decayR * 0.0012)
  let vel : ℚ × ℚ :=
    if type = PType.dust then
      let speed := 0.1 + r.speedR * 0.3
      (r.cosA * speed, r.sinA * speed - 0.1)
    else
      let speed := 0.15 + r.speedR * 0.25
      (r.cosA * speed + mvx * 0.06, r.sinA * speed - 0.08 + mvy * 0.06)
  { p with
    x := x, y := y, color := color, ptype := type, active := true,
    grounded := false,
    size := sizeMassDecay.1, mass := sizeMassDecay.2.1,
    lifeDecay := sizeMassDecay.2.2,
    isoHeight := sizeMassDecay.1 * 0.5, life := 1,
    rotation := r.rotR, rotationSpeed := (r.rotSpeedR - 0.5) * 0.015,
    vx := vel.1, vy := vel.2, scale := 0.1, targetScale := 1 }

/-- `this.vy += config.gravity * this.mass`. -/
def gravityStep (p : Particle) : Particle :=
  { p with vy := p.vy + gravity * p.mass }

/-- `this.vx *= config.friction; this.vy *= config.friction`. -/
def frictionStep (p : Particle) : Particle :=
  { p with vx := p.vx * friction, vy := p.vy * friction }

/-- `this.vx * this.vx + this.vy * this.vy` — the squared speed. -/
def speedSq (p : Particle) : ℚ := p.vx * p.vx + p.vy * p.vy

/-- Velocity cap: `speed = Math.sqrt(vx² + vy²); if (speed > maxVelocity)
scale both components by maxVelocity / speed`. -/
def capStep (sq : ℚ → ℚ) (p : Particle) : Particle :=
  let speed := sq (p.vx * p.vx + p.vy * p.vy)
  if maxVelocity < speed then
    let scale := maxVelocity / speed
    { p with vx := p.vx * scale, vy := p.vy * scale }
  else p

/-- Cursor force field (`if (mouse.x > 0 && !mouse.isDown) { … }`): active
only while not clicking; smoothstep falloff, push strength scaled by cursor
speed, plus partial inheritance of cursor momentum.  The two `vx +=`
assignments of the source (radial push, then momentum) are combined into one
sum. -/
def fieldStep (m : Mouse) (sq : ℚ → ℚ) (rnd : ℚ) (p : Particle) : Particle :=
  if 0 < m.x ∧ m.isDown = false then
    let dx := p.x - m.x
    let dy := p.y - m.y
    let distSq := dx * dx + dy * dy
    let radius := cursorFieldRadius
    if distSq < radius * radius ∧ 4 < distSq then
      let dist := sq distSq
      let t := 1 - dist / radius
      let falloff := t * t * (3 - 2 * t)
      let cursorSpeed := sq (m.vx * m.vx + m.vy * m.vy)
      let dynamicForce := cursorFieldForce * (0.4 + min (cursorSpeed * 0.4) 0.6)
      let force := falloff * dynamicForce
      let nx := dx / dist
      let ny := dy / dist
      { p with
        vx := p.vx + nx * force * 0.8 + m.vx * falloff * cursorMomentumTransfer,
        vy := p.vy + ny * force * 0.8 + m.vy * falloff * cursorMomentumTransfer,
        rotationSpeed := p.rotationSpeed + falloff * 0.002 * (rnd - 0.5) }
    else p
  else p

/-- `this.x += this.vx; this.y += this.vy`. -/
def integrateStep (p : Particle) : Particle :=
  { p with x := p.x + p.vx, y := p.y + p.vy }

/-- Left wall: `if (this.x < margin) { x = margin; vx = |vx| * bounciness;
rotationSpeed += 0.01 }`.  The source computes `margin = size * 0.5` once
before all four boundary checks; none of them changes `size`, so each step
recomputing it reads the same value. -/
def wallLeftStep (p : Particle) : Particle :=
  let margin := p.size * 0.5
  if p.x < margin then
    { p with x := margin, vx := |p.vx| * bounciness,
             rotationSpeed := p.rotationSpeed + 0.01 }
  else p

/-- Right wall: `if (this.x > w - margin) { x = w - margin;
vx = -|vx| * bounciness; rotationSpeed -= 0.01 }`. -/
def wallRightStep (w : ℚ) (p : Particle) : Particle :=
  let margin := p.size * 0.5
  if w - margin < p.x then
    { p with x := w - margin, vx := -(|p.vx|) * bounciness,
             rotationSpeed := p.rotationSpeed - 0.01 }
  else p

/-- Ceiling: `if (this.y < margin) { y = margin;
vy = |vy| * bounciness * 0.5 }`. -/
def ceilingStep (p : Particle) : Particle :=
  let margin := p.size * 0.5
  if p.y < margin then
    { p with y := margin, vy := |p.vy| * bounciness * 0.5 }
  else p

/-- Floor: clamp, bounce with ground friction, set `grounded`, and zero
micro-bounces below the `0.05` threshold. -/
def floorStep (h : ℚ) (p : Particle) : Particle :=
  let margin := p.size * 0.5
  if h - margin < p.y then
    let p := { p with y := h - margin, vy := -(|p.vy|) * bounciness,
                      vx := p.vx * groundFriction, grounded := true }
    if |p.vy| < 0.05 then
      { p with vy := 0, vx := p.vx * 0.97,
               rotationSpeed := p.rotationSpeed * 0.9 }
    else p
  else p

/-- Boundary collisions of the first variant: `grounded = false`, then the
four wall checks in source order. -/
def boundaryStep (w h : ℚ) (p : Particle) : Particle :=
  floorStep h (ceilingStep (wallRightStep w (wallLeftStep
    { p with grounded := false })))

/-- `this.rotationSpeed *= 0.995; this.rotation += this.rotationSpeed +
this.vx * 0.006`. -/
def rotationStep (p : Particle) : Particle :=
  let rs := p.rotationSpeed * 0.995
  { p with rotationSpeed := rs, rotation := p.rotation + rs + p.vx * 0.006 }

/-- The opening of `update`: scale easing toward `targetScale`, then
`life -= lifeDecay * (grounded ? 1.4 : 1)`. -/
def lifeStep (p : Particle) : Particle :=
  let p := { p with scale := p.scale + (p.targetScale - p.scale) * 0.15 }
  let decay := if p.grounded then p.lifeDecay * 1.4 else p.lifeDecay
  { p with life := p.life - decay }

/-- `if (this.life < 0.15) this.targetScale = 0` — scale out near death. -/
def fadeStep (p : Particle) : Particle :=
  if p.life < 0.15 then { p with targetScale := 0 } else p

/-- `Particle.prototype.update(w, h)` of the first variant, as the source
sequence: scale easing, life decay with early deactivation, target-scale
drop near death, gravity, friction, velocity cap, cursor field,
integration, boundaries, rotation damping. -/
def update (m : Mouse) (w h : ℚ) (sq : ℚ → ℚ) (rnd : ℚ) (p : Particle) :
    Particle :=
  let p := lifeStep p
  if p.life ≤ 0 then { p with active := false }
  else
    rotationStep (boundaryStep w h (integrateStep
      (fieldStep m sq rnd (capStep sq (frictionStep (gravityStep
        (fadeStep p)))))))

/-- The whole mutable module state: `mouse`, `active`, `pool`,
`pendingSpawns`, the smoothed cursor velocity closures, `time`, `running`,
plus the allocation counter `nextId` realising object identity. -/
structure SimState where
  mouse : Mouse
  active : List Particle
  pool : List Particle
  pending : List SpawnReq
  smoothVx : ℚ
  smoothVy : ℚ
  time : ℕ
  running : Bool
  nextId : ℕ
deriving Repr

/-- `getParticle`: reuse the last pooled object (`pool.pop()`) or construct
a fresh one (`new Particle()`), then `init` it. -/
def getParticle (x y : ℚ) (color : String) (type : PType) (intensity : ℚ)
    (mvx mvy : ℚ) (r : InitRnd) (pool : List Particle) (nid : ℕ) :
    Particle × List Particle × ℕ :=
  match pool.getLast? with
  | some p => (init p x y color type intensity mvx mvy r, pool.dropLast, nid)
  | none => (init (Particle.new nid) x y color type intensity mvx mvy r,
             pool, nid + 1)

/-- `config.colors[(Math.random() * config.colors.length) | 0]`; for
`r ∈ [0, 1)` the truncated index is in range. -/
def randomColor (r : ℚ) : String :=
  colors.getD (Int.toNat ⌊r * (colors.length : ℚ)⌋) ""

/-- `spawnExplosion(x, y, count, intensity)`: spawn
`min(count, maxParticles - active.length)` cubes on a radial pattern
around `(x, y)`; `actualCount` is computed once, before the loop. -/
def spawnExplosion (x y : ℚ) (count : ℕ) (intensity : ℚ)
    (rs : ℕ → SpawnRnd) (st : SimState) : SimState :=
  let actualCount : ℤ :=
    min (count : ℤ) ((maxParticles : ℤ) - (st.active.length : ℤ))
  (List.range actualCount.toNat).foldl (fun s i =>
    let r := rs i
    let radius := 2 + r.radiusR * spawnRadius * 0.5
    let px := x + r.cosA * radius
    let py := y + r.sinA * radius
    let g := getParticle px py (randomColor r.colorR) PType.cube
      (intensity + r.intensityR * 0.3) s.mouse.vx s.mouse.vy r.init
      s.pool s.nextId
    { s with active := s.active ++ [g.1], pool := g.2.1, nextId := g.2.2 })
    st

/-- `trySpawnOnDrag()`: distance-gated trail spawning while dragging.  The
source loop condition `i < steps && active.length < maxParticles` breaks
when the cap is hit; the fold below instead skips the remaining iterations,
which produces the same state. -/
def trySpawnOnDrag (sq : ℚ → ℚ) (dr : ℕ → DragRnd) (st : SimState) :
    SimState :=
  if st.mouse.isDown = false ∨ st.mouse.x < 0 then st
  else
    let dx := st.mouse.x - st.mouse.lastSpawnX
    let dy := st.mouse.y - st.mouse.lastSpawnY
    let dist := sq (dx * dx + dy * dy)
    if dist < dragSpawnDistance then st
    else
      let steps : ℤ := min ⌈dist / dragSpawnDistance⌉ 4
      let st2 := (List.range steps.toNat).foldl (fun (s : SimState) (i : ℕ) =>
        if s.active.length < maxParticles then
          let t : ℚ := ((i : ℚ) + 1) / (steps : ℚ)
          let r := dr i
          let spawnX := st.mouse.lastSpawnX + dx * t + (r.jx - 0.5) * 6
          let spawnY := st.mouse.lastSpawnY + dy * t + (r.jy - 0.5) * 6
          let g := getParticle spawnX spawnY (randomColor r.colorR)
            PType.cube 0.4 s.mouse.vx s.mouse.vy r.init s.pool s.nextId
          { s with active := s.active ++ [g.1], pool := g.2.1,
                   nextId := g.2.2 }
        else s) st
      { st2 with mouse := { st2.mouse with
          lastSpawnX := st2.mouse.x, lastSpawnY := st2.mouse.y } }

/-- The body of one `(i, j)` pair inside `handleCollisions`: overlap test,
separation, momentum exchange along the normal, and the optional
pending-spawn request (`mouse.isDown && |impulse| > 0.15 && random() <
collisionSpawnChance && room`); `room` is the caller's
`active.length + pendingSpawns.length < maxParticles` test. -/
def collidePair (isDown : Bool) (sq : ℚ → ℚ) (pr : PairRnd)
    (a b : Particle) (room : Bool) :
    Particle × Particle × Option SpawnReq :=
  let dx := b.x - a.x
  let dy := b.y - a.y
  let distSq := dx * dx + dy * dy
  let minDist := (a.size + b.size) * 0.55
  if distSq < minDist * minDist ∧ 0.1 < distSq then
    let dist := sq distSq
    let nx := dx / dist
    let ny := dy / dist
    let overlap := minDist - dist
    let separateX := nx * overlap * 0.35
    let separateY := ny * overlap * 0.35
    let a2 := { a with x := a.x - separateX, y := a.y - separateY }
    let b2 := { b with x := b.x + separateX, y := b.y + separateY }
    let dvx := a2.vx - b2.vx
    let dvy := a2.vy - b2.vy
    let impulse := (dvx * nx + dvy * ny) * 0.3
    let a3 := { a2 with vx := a2.vx - impulse * nx, vy := a2.vy - impulse * ny }
    let b3 := { b2 with vx := b2.vx + impulse * nx, vy := b2.vy + impulse * ny }
    let req : Option SpawnReq :=
      if isDown = true ∧ 0.15 < |impulse| ∧ pr.chance < collisionSpawnChance
          ∧ room = true then
        some { x := (a3.x + b3.x) / 2, y := (a3.y + b3.y) / 2,
               count := 1 + (⌊pr.countR * (maxCollisionSpawns : ℚ)⌋).toNat }
      else none
    (a3, b3, req)
  else (a, b, none)

/-- Process one index pair of the `handleCollisions` double loop on the
module state; the `continue` guards skip inactive and dust particles.  The
source checks the guard on `a` once per outer iteration, but neither
`active` flags nor types change during the pass, so the per-pair check is
equivalent. -/
def collideAt (sq : ℚ → ℚ) (rnd : ℕ × ℕ → PairRnd) (st : SimState)
    (ij : ℕ × ℕ) : SimState :=
  match st.active.get? ij.1, st.active.get? ij.2 with
  | some a, some b =>
    if (a.active = false ∨ a.ptype = PType.dust)
        ∨ (b.active = false ∨ b.ptype = PType.dust) then st
    else
      let room :=
        decide (st.active.length + st.pending.length < maxParticles)
      let r := collidePair st.mouse.isDown sq (rnd ij) a b room
      let act := (st.active.set ij.1 r.1).set ij.2 r.2.1
      match r.2.2 with
      | some req => { st with active := act, pending := st.pending ++ [req] }
      | none => { st with active := act }
  | _, _ => st

/-- The index pairs `(i, j)` with `i < j < n` in the order the double loop
visits them. -/
def pairIndices (n : ℕ) : List (ℕ × ℕ) :=
  (List.range n).flatMap fun i =>
    ((List.range n).drop (i + 1)).map fun j => (i, j)

/-- `handleCollisions()`: the O(n²) pass over the active array (its length
is captured before the loop and does not change during the pass). -/
def handleCollisions (sq : ℚ → ℚ) (rnd : ℕ × ℕ → PairRnd) (st : SimState) :
    SimState :=
  (pairIndices st.active.length).foldl (collideAt sq rnd) st

/-- The update-and-retire loop of `animate`: iterate over `active` from the
last index down, update each particle, and `splice` the deactivated ones
into `pool`.  The backward iteration visits each original element exactly
once and preserves the relative order of survivors; deactivated particles
are pushed onto the pool in reverse index order, which this recursion
reproduces (`rest` is processed before the head, and the head's retirement
is appended last). -/
def updatePass (upd : ℕ → Particle → Particle) :
    ℕ → List Particle → List Particle × List Particle
  | _, [] => ([], [])
  | k, p :: rest =>
    let r := updatePass upd (k + 1) rest
    let q := upd k p
    if q.active = true then (q :: r.1, r.2) else (r.1, r.2 ++ [q])

/-- Per-frame random draws: one `DragRnd` per drag-spawn iteration, one
`SpawnRnd` per pending-explosion iteration and inner index, one `PairRnd`
per collision pair, one jitter draw per updated particle. -/
structure FrameRnd where
  drag : ℕ → DragRnd
  expl : ℕ → ℕ → SpawnRnd
  pair : ℕ × ℕ → PairRnd
  upd : ℕ → ℚ

/-- The bounded pending-spawn drain of `animate`:
`while (pendingSpawns.length > 0 && active.length < maxParticles &&
spawnsThisFrame < 3)`, with the `< 3` bound as structural fuel. -/
def processPending (expl : ℕ → ℕ → SpawnRnd) :
    ℕ → SimState → SimState
  | 0, st => st
  | n + 1, st =>
    match st.pending with
    | [] => st
    | req :: rest =>
      if st.active.length < maxParticles then
        processPending expl n
          (spawnExplosion req.x req.y req.count 0.25 (expl n)
            { st with pending := rest })
      else st

/-- The opening of `animate`: `time++` and the exponential smoothing of the
cursor velocity, copied into `mouse.vx`/`mouse.vy`. -/
def frameVel (st : SimState) : SimState :=
  let rawVx := st.mouse.x - st.mouse.prevX
  let rawVy := st.mouse.y - st.mouse.prevY
  let smoothVx := st.smoothVx + (rawVx - st.smoothVx) * 0.3
  let smoothVy := st.smoothVy + (rawVy - st.smoothVy) * 0.3
  { st with
    time := st.time + 1, smoothVx := smoothVx, smoothVy := smoothVy,
    mouse := { st.mouse with vx := smoothVx, vy := smoothVy } }

/-- `if (pendingSpawns.length > 5) pendingSpawns.length = 5`. -/
def framePendingCap (st : SimState) : SimState :=
  if 5 < st.pending.length then { st with pending := st.pending.take 5 }
  else st

/-- `mouse.prevX = mouse.x; mouse.prevY = mouse.y`. -/
def framePrev (st : SimState) : SimState :=
  { st with mouse := { st.mouse with
      prevX := st.mouse.x, prevY := st.mouse.y } }

/-- `if (time % 2 === 0) handleCollisions()` — `time` was already
incremented at the top of the frame. -/
def frameCollide (sq : ℚ → ℚ) (fr : FrameRnd) (st : SimState) : SimState :=
  if st.time % 2 = 0 then handleCollisions sq fr.pair st else st

/-- The update-and-retire loop: update every particle, keep the survivors,
push the rest onto the pool. -/
def frameUpdate (w h : ℚ) (sq : ℚ → ℚ) (fr : FrameRnd) (st : SimState) :
    SimState :=
  let pass := updatePass (fun k p => update st.mouse w h sq (fr.upd k) p)
    0 st.active
  { st with active := pass.1, pool := st.pool ++ pass.2 }

/-- One `animate()` frame (sans rendering): cursor-velocity smoothing,
drag-trail spawning, pending-explosion processing, queue capping,
previous-position update, throttled collisions, then the
update-and-retire pass — in source order. -/
def stepFrame (w h : ℚ) (sq : ℚ → ℚ) (fr : FrameRnd) (st : SimState) :
    SimState :=
  if st.running = false then st
  else
    frameUpdate w h sq fr (frameCollide sq fr (framePrev (framePendingCap
      (processPending fr.expl 3 (trySpawnOnDrag sq fr.drag
        (frameVel st))))))

/-- `onMouseDown`: record the press, then `spawnExplosion(x, y,
clickSpawnCount, 0.5)`. -/
def onMouseDown (cx cy : ℚ) (rs : ℕ → SpawnRnd) (st : SimState) : SimState :=
  let st := { st with mouse := { st.mouse with
      isDown := true, x := cx, y := cy, prevX := cx, prevY := cy,
      lastSpawnX := cx, lastSpawnY := cy } }
  spawnExplosion cx cy clickSpawnCount 0.5 rs st

/-- `onMouseUp`. -/
def onMouseUp (st : SimState) : SimState :=
  { st with mouse := { st.mouse with isDown := false } }

/-- `onMouseMove(e)`: only copies `e.clientX`/`e.clientY` into the tracked
position.  The DOM event also carries `e.buttons`, modelled here as the
(unread) `buttons` argument. -/
def onMouseMove (cx cy : ℚ) (buttons : ℕ) (st : SimState) : SimState :=
  { st with mouse := { st.mouse with x := cx, y := cy } }

/-- `onMouseLeave`: park the cursor at the off-canvas sentinel and clear the
press flag. -/
def onMouseLeave (st : SimState) : SimState :=
  { st with mouse := { st.mouse with
      x := -1000, y := -1000, isDown := false } }

/-- `onBlur`. -/
def onBlur (st : SimState) : SimState :=
  { st with mouse := { st.mouse with isDown := false } }

/-- `onVisibilityChange`: pause on hide (clearing the press flag), resume on
show (frames themselves are separate events). -/
def onVisibilityChange (hidden : Bool) (st : SimState) : SimState :=
  if hidden then
    { st with
      mouse := { st.mouse with isDown := false }, running := false }
  else if st.running = false then { st with running := true }
  else st

/-- The external stimuli of the module: the attached listeners plus the
animation-frame callback. -/
inductive Ev where
  | mousedown (cx cy : ℚ) (rs : ℕ → SpawnRnd)
  | mouseup
  | mousemove (cx cy : ℚ) (buttons : ℕ)
  | mouseleave
  | blur
  | visibility (hidden : Bool)
  | frame (w h : ℚ) (sq : ℚ → ℚ) (fr : FrameRnd)

/-- Dispatch one event to its handler. -/
def stepEv : Ev → SimState → SimState
  | Ev.mousedown cx cy rs => onMouseDown cx cy rs
  | Ev.mouseup => onMouseUp
  | Ev.mousemove cx cy b => onMouseMove cx cy b
  | Ev.mouseleave => onMouseLeave
  | Ev.blur => onBlur
  | Ev.visibility hidden => onVisibilityChange hidden
  | Ev.frame w h sq fr => stepFrame w h sq fr

/-- The module state right after `initParticleCanvas` sets up its closures:
empty arrays, sentinel mouse position, running. -/
def initState : SimState :=
  { mouse := { x := -1000, y := -1000, prevX := -1000, prevY := -1000,
               vx := 0, vy := 0, isDown := false, lastSpawnX := -1000,
               lastSpawnY := -1000 },
    active := [], pool := [], pending := [], smoothVx := 0, smoothVy := 0,
    time := 0, running := true, nextId := 0 }

end Cosmic

/- Second variant of particles.js (lines 548–1010): softer physics, no
velocity cap, cursor influence independent of the click state. -/
namespace Soft

def maxParticles : ℕ := 60
def gravity : ℚ := 0.025
def friction : ℚ := 0.988
def groundFriction : ℚ := 0.92
def bounciness : ℚ := 0.25
def cursorRadius : ℚ := 45
def cursorForce : ℚ := 0.15
def minSpawnDistance : ℚ := 18
def clickSpawnCount : ℕ := 2

/-- `Particle.prototype.update(w, h)` of the second variant: life decay with
early deactivation, gravity, friction, cursor influence (`if (mouse.x > 0)`
— applied regardless of `mouse.isDown`, cubic `t³` falloff, no cursor-speed
scaling, no momentum inheritance, no velocity cap), integration, boundary
bounces with `margin = size * 0.7`, rotation from horizontal velocity. -/
def update (m : Mouse) (w h : ℚ) (sq : ℚ → ℚ) (p : Particle) : Particle :=
  let decay := if p.grounded then p.lifeDecay * 1.3 else p.lifeDecay
  let p := { p with life := p.life - decay }
  if p.life ≤ 0 then { p with active := false }
  else
    let p := { p with vy := p.vy + gravity * p.mass }
    let p := { p with vx := p.vx * friction, vy := p.vy * friction }
    let p :=
      if 0 < m.x then
        let dx := p.x - m.x
        let dy := p.y - m.y
        let distSq := dx * dx + dy * dy
        if distSq < cursorRadius * cursorRadius ∧ 1 < distSq then
          let dist := sq distSq
          let t := 1 - dist / cursorRadius
          let falloff := t * t * t
          let force := falloff * cursorForce
          let nx := dx / dist
          let ny := dy / dist
          { p with vx := p.vx + nx * force * 0.3, vy := p.vy + ny * force * 0.3 }
        else p
      else p
    let p := { p with x := p.x + p.vx, y := p.y + p.vy }
    let margin : ℚ := p.size * 0.7
    let p := { p with grounded := false }
    let p : Particle :=
      if p.x < margin then { p with x := margin, vx := |p.vx| * bounciness }
      else p
    let p : Particle :=
      if w - margin < p.x then
        { p with x := w - margin, vx := -(|p.vx|) * bounciness }
      else p
    let p : Particle :=
      if p.y < margin then { p with y := margin, vy := |p.vy| * bounciness * 0.5 }
      else p
    let p : Particle :=
      if h - margin < p.y then
        let p : Particle := { p with
          y := h - margin, vy := -(|p.vy|) * bounciness,
          vx := p.vx * groundFriction, grounded := true }
        if |p.vy| < 0.15 then { p with vy := 0 } else p
      else p
    { p with rotation := p.rotation + p.vx * 0.01 }

end Soft

/- part_010 ("cursor-traced" variant): its `animate` enforces the particle
limit by evicting the oldest entries. -/
namespace Trace

def maxParticles : ℕ := 120

/-- `while (active.length > config.maxParticles) { const removed =
active.shift(); removed.active = false; pool.push(removed); }` -/
def enforceLimit (maxP : ℕ) :
    List Particle → List Particle → List Particle × List Particle
  | [], pool => ([], pool)
  | p :: rest, pool =>
    if maxP < (p :: rest).length then
      enforceLimit maxP rest (pool ++ [{ p with active := false }])
    else (p :: rest, pool)

end Trace

/- The `shadeColor` helpers (particles.js lines 67–74, scripts.js lines
94–106) and the hexadecimal string plumbing they rely on
(`parseInt(·, 16)` and `Number.prototype.toString(16)`). -/
namespace Hex

/-- Value of one hexadecimal digit character, `none` for anything else. -/
def hexVal? (c : Char) : Option ℕ :=
  if 48 ≤ c.toNat ∧ c.toNat ≤ 57 then some (c.toNat - 48)
  else if 97 ≤ c.toNat ∧ c.toNat ≤ 102 then some (c.toNat - 87)
  else if 65 ≤ c.toNat ∧ c.toNat ≤ 70 then some (c.toNat - 55)
  else none

/-- One accumulator step of `parseInt(·, 16)`: shift in the next digit, or
fail on a non-digit. -/
def parseHexStep (acc : Option ℕ) (c : Char) : Option ℕ :=
  match acc, hexVal? c with
  | some a, some d => some (a * 16 + d)
  | _, _ => none

/-- Strict base-16 parse of a digit list; on well-formed input (the claims'
hypothesis) it agrees with `parseInt(s, 16)`. -/
def parseHex (cs : List Char) : Option ℕ :=
  cs.foldl parseHexStep (some 0)

/-- Lower-case hexadecimal digit for `d < 16` (as `toString(16)` emits). -/
def hexChar (d : ℕ) : Char :=
  if d < 10 then Char.ofNat (48 + d) else Char.ofNat (87 + d)

/-- `Number.prototype.toString(16)` for naturals: most-significant digit
first, no leading zeros. -/
def toHexList (n : ℕ) : List Char :=
  if _h : n < 16 then [hexChar n]
  else toHexList (n / 16) ++ [hexChar (n % 16)]
  termination_by n
  decreasing_by
    exact Nat.div_lt_self (Nat.pos_of_ne_zero (by omega)) (by omega)

/-- `Math.round` (half away from zero is JS's half-up: `floor(x + 0.5)`). -/
def jsRound (q : ℚ) : ℤ := ⌊q + 1 / 2⌋

/-- `color.replace('#', '')`: drop the first `'#'` occurrence. -/
def removeFirstHash : List Char → List Char
  | [] => []
  | c :: cs => if c = '#' then cs else c :: removeFirstHash cs

end Hex

namespace Cosmic

/-- `shadeColor(color, percent)` of particles.js: parse the hex triplet
after the `'#'`, shift each channel by `Math.round(2.55 * percent)`, clamp
to `[0, 255]` with `Math.max(0, Math.min(255, ·))`, then re-pack behind a
leading `1 << 24` and emit `toString(16).slice(1)`.  `parseInt` returning
`NaN` on garbage propagates as 0 through JS bit operations, hence the
`getD 0`. -/
def shadeColor (color : String) (percent : ℤ) : String :=
  let num : ℕ := (Hex.parseHex (color.data.drop 1)).getD 0
  let amt : ℤ := Hex.jsRound ((2.55 : ℚ) * (percent : ℚ))
  let R : ℤ := max 0 (min 255 (((num >>> 16 : ℕ) : ℤ) + amt))
  let G : ℤ := max 0 (min 255 ((((num >>> 8) &&& 0xff : ℕ) : ℤ) + amt))
  let B : ℤ := max 0 (min 255 (((num &&& 0xff : ℕ) : ℤ) + amt))
  let packed : ℕ := (1 <<< 24) ||| (R.toNat <<< 16) ||| (G.toNat <<< 8) ||| B.toNat
  "#" ++ String.mk ((Hex.toHexList packed).drop 1)

end Cosmic

/- The inline script variant (scripts.js). -/
namespace Scripts

/-- `shadeColor(color, percent)` of scripts.js: same shape, with the clamp
written as nested conditionals `(R < 255 ? (R < 1 ? 0 : R) : 255)` and the
re-packing written with `0x1000000 + R * 0x10000 + G * 0x100 + B`. -/
def shadeColor (color : String) (percent : ℤ) : String :=
  let num : ℕ := (Hex.parseHex (Hex.removeFirstHash color.data)).getD 0
  let amt : ℤ := Hex.jsRound ((2.55 : ℚ) * (percent : ℚ))
  let R : ℤ := ((num >>> 16 : ℕ) : ℤ) + amt
  let G : ℤ := (((num >>> 8) &&& 0xff : ℕ) : ℤ) + amt
  let B : ℤ := ((num &&& 0xff : ℕ) : ℤ) + amt
  let Rc : ℤ := if R < 255 then (if R < 1 then 0 else R) else 255
  let Gc : ℤ := if G < 255 then (if G < 1 then 0 else G) else 255
  let Bc : ℤ := if B < 255 then (if B < 1 then 0 else B) else 255
  let packed : ℕ := 0x1000000 + Rc.toNat * 0x10000 + Gc.toNat * 0x100 + Bc.toNat
  "#" ++ String.mk ((Hex.toHexList packed).drop 1)

end Scripts

/- The mount contract of every variant (particles.js lines 13–15):
`const canvas = qs(selector); if (!canvas) return { stop: () => {} };`. -/

/-- The lifecycle handle returned by `initParticleCanvas`. -/
structure Handle where
  stop : Unit → Unit

/-- The inert handle `{ stop() {} }`. -/
def inertHandle : Handle := { stop := fun _ => () }

/-- `initParticleCanvas`: `qs(selector)` either finds a canvas (`some c`)
or not (`none`); on a miss the function returns the inert handle without
running any of the remaining setup, which is abstracted as `rest`. -/
def initParticleCanvas {α : Type} (canvas : Option α) (rest : α → Handle) :
    Handle :=
  match canvas with
  | none => inertHandle
  | some c => rest c

/-
Theorem-support definitions.
-/

/-- A stand-in for `Math.sqrt` that is exact at the perfect squares used by
the concrete scenarios below (and 0 elsewhere). -/
def demoSqrt : ℚ → ℚ := fun s =>
  if s = 25 then 5
  else if s = 100 then 10
  else if s = 2500 then 50
  else if s = 250000 then 500
  else 0

/-- The smoothstep polynomial named by the spec. -/
def smoothstep (t : ℚ) : ℚ := t * t * (3 - 2 * t)

/-- A cursor far off-canvas (the sentinel state), pointer up. -/
def idleMouse : Mouse :=
  { x := -1000, y := -1000, prevX := -1000, prevY := -1000, vx := 0, vy := 0,
    isDown := false, lastSpawnX := -1000, lastSpawnY := -1000 }

/-
C9 — missing drawing surface.
-/

/-- C9: initializing against a missing drawing surface (the selector
matches no element) returns the inert `{stop(){}}` handle without running
any setup, and calling `stop()` on that handle is a no-op; both are total
functions, so neither can throw. -/
theorem missing_surface_inert_handle :
    ∀ (α : Type) (rest : α → Handle),
      initParticleCanvas (none : Option α) rest = inertHandle ∧
      (initParticleCanvas (none : Option α) rest).stop () = () := by
  intro α rest
  exact ⟨rfl, rfl⟩

/-
C4 — no defensive buttons check on mousemove.
-/

/-- A state in which the tracked pointer is stuck down (the missed-mouseup
scenario). -/
def stuckState : Cosmic.SimState :=
  { Cosmic.initState with mouse := { Cosmic.initState.mouse with
      x := 10, y := 10, isDown := true } }

/-- C4, counterexample: the claim says that a `mousemove` whose event
reports no buttons pressed (`buttons = 0`) while `isDown` is still true
force-resets `isDown` to false.  The handler `onMouseMove` only copies the
event coordinates, so `isDown` remains true. -/
theorem mousemove_keeps_stuck_isDown :
    (Cosmic.onMouseMove 50 60 0 stuckState).mouse.isDown = true := rfl

/-- C4, amended: `onMouseMove` performs no defensive reset — it leaves
`isDown` unchanged and only updates the tracked position, for every event
(including ones reporting no pressed buttons); `isDown` is cleared only by
the `mouseup`, `mouseleave`, `blur` and visibility-hidden handlers. -/
theorem mousemove_updates_position_only (cx cy : ℚ) (buttons : ℕ)
    (st : Cosmic.SimState) :
    (Cosmic.onMouseMove cx cy buttons st).mouse.isDown = st.mouse.isDown ∧
    (Cosmic.onMouseMove cx cy buttons st).mouse.x = cx ∧
    (Cosmic.onMouseMove cx cy buttons st).mouse.y = cy ∧
    (Cosmic.onMouseUp st).mouse.isDown = false ∧
    (Cosmic.onMouseLeave st).mouse.isDown = false ∧
    (Cosmic.onBlur st).mouse.isDown = false ∧
    (Cosmic.onVisibilityChange true st).mouse.isDown = false := by
  refine ⟨rfl, rfl, rfl, rfl, rfl, rfl, ?_⟩
  simp [Cosmic.onVisibilityChange]

/-
C3 — cursor interaction.
-/

/-- An active cube particle sitting at distance 5 from `(100, 100)`. -/
def cubeP : Particle :=
  { Particle.new 0 with
    x := 103, y := 104, vx := 0, vy := 0, size := 5,
    mass := 1, lifeDecay := 1 / 100, life := 1, scale := 1, targetScale := 1,
    active := true }

/-- Pointer pressed at `(100, 100)`. -/
def nearDownMouse : Mouse := { idleMouse with x := 100, y := 100, isDown := true }

/-- Pointer pressed, cursor parked at the off-canvas sentinel. -/
def farDownMouse : Mouse := { idleMouse with isDown := true }

/-- Pointer not pressed, cursor at `(100, 100)`. -/
def deadZoneMouse : Mouse := { idleMouse with x := 100, y := 100 }

/-- An active cube particle at distance 1 from `(100, 100)` — inside the
cursor field radius but inside the `distSq > 4` dead zone. -/
def cubeQ : Particle := { cubeP with x := 100.6, y := 100.8 }

/-- C3, counterexample: (1) in the second variant the cursor field is
applied even while the pointer is pressed — with `isDown = true` in both
runs, moving the cursor from `(100, 100)` to the far sentinel changes the
updated `vx`, which could not happen if no repulsion were applied while
pressed (the cursor position is only read by the field block); (2) in the
first variant a particle within `cursorFieldRadius` of an un-pressed
cursor but at distance ≤ 2 (`distSq ≤ 4`) receives no force at all,
contradicting "every active particle within cursorFieldRadius … receives a
repulsion force". -/
theorem cursor_field_not_exclusive_cex :
    nearDownMouse.isDown = true ∧ farDownMouse.isDown = true ∧
    (Soft.update nearDownMouse 10000 10000 demoSqrt cubeP).vx ≠
      (Soft.update farDownMouse 10000 10000 demoSqrt cubeP).vx ∧
    deadZoneMouse.isDown = false ∧ 0 < deadZoneMouse.x ∧
    (cubeQ.x - deadZoneMouse.x) * (cubeQ.x - deadZoneMouse.x) +
        (cubeQ.y - deadZoneMouse.y) * (cubeQ.y - deadZoneMouse.y)
      < Cosmic.cursorFieldRadius * Cosmic.cursorFieldRadius ∧
    Cosmic.fieldStep deadZoneMouse demoSqrt (1 / 2) cubeQ = cubeQ := by
  refine ⟨rfl, rfl, ?_, rfl, by norm_num [deadZoneMouse, idleMouse], ?_, ?_⟩
  · norm_num [Soft.update, Soft.gravity, Soft.friction, Soft.cursorRadius,
      Soft.cursorForce, Soft.bounciness, Soft.groundFriction, demoSqrt,
      nearDownMouse, farDownMouse, idleMouse, cubeP, Particle.new]
  · norm_num [cubeQ, cubeP, deadZoneMouse, idleMouse, Particle.new,
      Cosmic.cursorFieldRadius]
  · norm_num [Cosmic.fieldStep, cubeQ, cubeP, deadZoneMouse, idleMouse,
      Particle.new, Cosmic.cursorFieldRadius, demoSqrt]

/-- While the pointer is pressed, the first variant's cursor field is
skipped entirely. -/
lemma fieldStep_of_isDown (m : Mouse) (sq : ℚ → ℚ) (rnd : ℚ) (p : Particle)
    (h : m.isDown = true) : Cosmic.fieldStep m sq rnd p = p := by
  simp [Cosmic.fieldStep, h]

/-- Particles at squared distance ≤ 4 from the cursor receive no force. -/
lemma fieldStep_of_close (m : Mouse) (sq : ℚ → ℚ) (rnd : ℚ) (p : Particle)
    (h : (p.x - m.x) * (p.x - m.x) + (p.y - m.y) * (p.y - m.y) ≤ 4) :
    Cosmic.fieldStep m sq rnd p = p := by
  simp only [Cosmic.fieldStep]
  split_ifs with h1 h2
  · exact absurd h2.2 (by linarith)
  · rfl
  · rfl

/-- Particles beyond the cursor field radius receive no force. -/
lemma fieldStep_of_far (m : Mouse) (sq : ℚ → ℚ) (rnd : ℚ) (p : Particle)
    (h : Cosmic.cursorFieldRadius * Cosmic.cursorFieldRadius
      ≤ (p.x - m.x) * (p.x - m.x) + (p.y - m.y) * (p.y - m.y)) :
    Cosmic.fieldStep m sq rnd p = p := by
  simp only [Cosmic.fieldStep]
  split_ifs with h1 h2
  · exact absurd h2.1 (by linarith)
  · rfl
  · rfl

/-- The cursor field is skipped while the tracked position is at or beyond
the off-canvas sentinel (`mouse.x ≤ 0`). -/
lemma fieldStep_of_offCanvas (m : Mouse) (sq : ℚ → ℚ) (rnd : ℚ) (p : Particle)
    (h : m.x ≤ 0) : Cosmic.fieldStep m sq rnd p = p := by
  simp only [Cosmic.fieldStep]
  rw [if_neg]
  rintro ⟨h1, -⟩
  linarith

/-- The in-range repulsion law of the first variant: a positive radial
coefficient times the outward vector, plus partial inheritance of the
cursor velocity weighted by the smoothstep falloff. -/
lemma fieldStep_repulsion (m : Mouse) (sq : ℚ → ℚ) (rnd : ℚ) (p : Particle)
    (hdown : m.isDown = false) (hx : 0 < m.x)
    (h4 : 4 < (p.x - m.x) * (p.x - m.x) + (p.y - m.y) * (p.y - m.y))
    (hr : (p.x - m.x) * (p.x - m.x) + (p.y - m.y) * (p.y - m.y)
      < Cosmic.cursorFieldRadius * Cosmic.cursorFieldRadius)
    (hsq : SqOkAt sq
      ((p.x - m.x) * (p.x - m.x) + (p.y - m.y) * (p.y - m.y)))
    (hcs : 0 ≤ sq (m.vx * m.vx + m.vy * m.vy)) :
    ∃ c : ℚ, 0 < c ∧
      (Cosmic.fieldStep m sq rnd p).vx = p.vx + c * (p.x - m.x)
        + m.vx * smoothstep (1 - sq ((p.x - m.x) * (p.x - m.x)
            + (p.y - m.y) * (p.y - m.y)) / Cosmic.cursorFieldRadius)
          * Cosmic.cursorMomentumTransfer ∧
      (Cosmic.fieldStep m sq rnd p).vy = p.vy + c * (p.y - m.y)
        + m.vy * smoothstep (1 - sq ((p.x - m.x) * (p.x - m.x)
            + (p.y - m.y) * (p.y - m.y)) / Cosmic.cursorFieldRadius)
          * Cosmic.cursorMomentumTransfer := by
  set D := (p.x - m.x) * (p.x - m.x) + (p.y - m.y) * (p.y - m.y) with hD
  obtain ⟨hd0, hdd⟩ := hsq
  have hrad : Cosmic.cursorFieldRadius = 100 := rfl
  have hd2 : 2 < sq D := by nlinarith [hd0, hdd]
  have hdpos : 0 < sq D := by linarith
  have hdlt : sq D < 100 := by nlinarith [hd0, hdd, hr, hrad]
  have ht0 : 0 < 1 - sq D / 100 := by
    have : sq D / 100 < 1 := by
      rw [div_lt_one (by norm_num : (0 : ℚ) < 100)]
      exact hdlt
    linarith
  have ht1 : 1 - sq D / 100 < 1 := by
    have : 0 < sq D / 100 := by positivity
    linarith
  have hfall : 0 < smoothstep (1 - sq D / 100) := by
    have h3 : 0 < 3 - 2 * (1 - sq D / 100) := by linarith
    have := mul_pos (mul_pos ht0 ht0) h3
    simpa [smoothstep] using this
  have hdf : 0 < Cosmic.cursorFieldForce
      * (0.4 + min (sq (m.vx * m.vx + m.vy * m.vy) * 0.4) 0.6) := by
    have hmin : (0 : ℚ) ≤ min (sq (m.vx * m.vx + m.vy * m.vy) * 0.4) 0.6 :=
      le_min (by linarith) (by norm_num)
    have : (0 : ℚ) < 0.4 + min (sq (m.vx * m.vx + m.vy * m.vy) * 0.4) 0.6 := by
      linarith
    have hcf : (0 : ℚ) < Cosmic.cursorFieldForce := by norm_num [Cosmic.cursorFieldForce]
    exact mul_pos hcf this
  refine ⟨smoothstep (1 - sq D / 100)
    * (Cosmic.cursorFieldForce
      * (0.4 + min (sq (m.vx * m.vx + m.vy * m.vy) * 0.4) 0.6)) * 0.8 / sq D,
    ?_, ?_, ?_⟩
  · positivity
  · simp only [Cosmic.fieldStep]
    rw [if_pos ⟨hx, hdown⟩, if_pos (by rw [← hD]; exact ⟨by simpa [hrad] using hr, h4⟩)]
    simp only [← hD, smoothstep, Cosmic.cursorFieldRadius]
    field_simp
    ring
  · simp only [Cosmic.fieldStep]
    rw [if_pos ⟨hx, hdown⟩, if_pos (by rw [← hD]; exact ⟨by simpa [hrad] using hr, h4⟩)]
    simp only [← hD, smoothstep, Cosmic.cursorFieldRadius]
    field_simp
    ring

/-- The second variant's update never reads `mouse.isDown`. -/
lemma soft_update_ignores_isDown (m : Mouse) (b : Bool) (w h : ℚ)
    (sq : ℚ → ℚ) (p : Particle) :
    Soft.update { m with isDown := b } w h sq p = Soft.update m w h sq p := by
  simp only [Soft.update]

/-- C3 (amended): in the first variant the claim holds with two provisos —
while not pressed, every active particle at squared distance in
`(4, cursorFieldRadius²)` from an on-canvas cursor receives an outward
(positive-coefficient) radial force with smoothstep (never linear) falloff
scaled by cursor speed, plus partial inheritance of cursor velocity, but
particles at squared distance ≤ 4 receive nothing; while pressed, no
repulsion is applied.  In the second variant (particles.js lines 674–750)
the cursor field is applied regardless of pointer state (`update` never
reads `isDown`). -/
theorem cursor_interaction_modes :
    (∀ (m : Mouse) (sq : ℚ → ℚ) (rnd : ℚ) (p : Particle),
      m.isDown = true → Cosmic.fieldStep m sq rnd p = p) ∧
    (∀ (m : Mouse) (sq : ℚ → ℚ) (rnd : ℚ) (p : Particle),
      (p.x - m.x) * (p.x - m.x) + (p.y - m.y) * (p.y - m.y) ≤ 4 →
      Cosmic.fieldStep m sq rnd p = p) ∧
    (∀ (m : Mouse) (sq : ℚ → ℚ) (rnd : ℚ) (p : Particle),
      m.isDown = false → 0 < m.x →
      4 < (p.x - m.x) * (p.x - m.x) + (p.y - m.y) * (p.y - m.y) →
      (p.x - m.x) * (p.x - m.x) + (p.y - m.y) * (p.y - m.y)
        < Cosmic.cursorFieldRadius * Cosmic.cursorFieldRadius →
      SqOkAt sq ((p.x - m.x) * (p.x - m.x) + (p.y - m.y) * (p.y - m.y)) →
      0 ≤ sq (m.vx * m.vx + m.vy * m.vy) →
      ∃ c : ℚ, 0 < c ∧
        (Cosmic.fieldStep m sq rnd p).vx = p.vx + c * (p.x - m.x)
          + m.vx * smoothstep (1 - sq ((p.x - m.x) * (p.x - m.x)
              + (p.y - m.y) * (p.y - m.y)) / Cosmic.cursorFieldRadius)
            * Cosmic.cursorMomentumTransfer ∧
        (Cosmic.fieldStep m sq rnd p).vy = p.vy + c * (p.y - m.y)
          + m.vy * smoothstep (1 - sq ((p.x - m.x) * (p.x - m.x)
              + (p.y - m.y) * (p.y - m.y)) / Cosmic.cursorFieldRadius)
            * Cosmic.cursorMomentumTransfer) ∧
    (∀ (m : Mouse) (b : Bool) (w h : ℚ) (sq : ℚ → ℚ) (p : Particle),
      Soft.update { m with isDown := b } w h sq p = Soft.update m w h sq p) :=
  ⟨fieldStep_of_isDown, fieldStep_of_close, fieldStep_repulsion,
   soft_update_ignores_isDown⟩

/-- Witness for C3: the repulsion law instantiated at the concrete
particle `cubeP` (distance 5 from the un-pressed cursor at `(100, 100)`),
with every hypothesis discharged by computation. -/
theorem cursor_interaction_modes_witness :
    deadZoneMouse.isDown = false ∧
    (∃ c : ℚ, 0 < c ∧
      (Cosmic.fieldStep deadZoneMouse demoSqrt 0 cubeP).vx
        = cubeP.vx + c * (cubeP.x - deadZoneMouse.x)
          + deadZoneMouse.vx * smoothstep (1 - demoSqrt
              ((cubeP.x - deadZoneMouse.x) * (cubeP.x - deadZoneMouse.x)
                + (cubeP.y - deadZoneMouse.y) * (cubeP.y - deadZoneMouse.y))
              / Cosmic.cursorFieldRadius) * Cosmic.cursorMomentumTransfer ∧
      (Cosmic.fieldStep deadZoneMouse demoSqrt 0 cubeP).vy
        = cubeP.vy + c * (cubeP.y - deadZoneMouse.y)
          + deadZoneMouse.vy * smoothstep (1 - demoSqrt
              ((cubeP.x - deadZoneMouse.x) * (cubeP.x - deadZoneMouse.x)
                + (cubeP.y - deadZoneMouse.y) * (cubeP.y - deadZoneMouse.y))
              / Cosmic.cursorFieldRadius) * Cosmic.cursorMomentumTransfer) :=
  ⟨rfl,
   cursor_interaction_modes.2.2.1 deadZoneMouse demoSqrt 0 cubeP rfl
     (by norm_num [deadZoneMouse, idleMouse])
     (by norm_num [deadZoneMouse, idleMouse, cubeP, Particle.new])
     (by norm_num [deadZoneMouse, idleMouse, cubeP, Particle.new,
       Cosmic.cursorFieldRadius])
     (by norm_num [SqOkAt, deadZoneMouse, idleMouse, cubeP, Particle.new,
       demoSqrt])
     (by norm_num [deadZoneMouse, idleMouse, demoSqrt])⟩

/-
C6 — boundary containment.
-/

lemma wallLeftStep_x_lb (p : Particle) :
    p.size * 0.5 ≤ (Cosmic.wallLeftStep p).x := by
  simp only [Cosmic.wallLeftStep]
  split_ifs with h
  · exact le_refl _
  · exact le_of_not_lt h

lemma wallLeftStep_y (p : Particle) : (Cosmic.wallLeftStep p).y = p.y := by
  simp only [Cosmic.wallLeftStep]; split_ifs <;> rfl

lemma wallLeftStep_size (p : Particle) :
    (Cosmic.wallLeftStep p).size = p.size := by
  simp only [Cosmic.wallLeftStep]; split_ifs <;> rfl

lemma wallRightStep_x (w : ℚ) (p : Particle)
    (hw : p.size * 0.5 + p.size * 0.5 ≤ w) (hlb : p.size * 0.5 ≤ p.x) :
    p.size * 0.5 ≤ (Cosmic.wallRightStep w p).x ∧
    (Cosmic.wallRightStep w p).x ≤ w - p.size * 0.5 := by
  simp only [Cosmic.wallRightStep]
  split_ifs with h
  · exact ⟨by linarith, le_refl _⟩
  · exact ⟨hlb, le_of_not_lt h⟩

lemma wallRightStep_y (w : ℚ) (p : Particle) :
    (Cosmic.wallRightStep w p).y = p.y := by
  simp only [Cosmic.wallRightStep]; split_ifs <;> rfl

lemma wallRightStep_size (w : ℚ) (p : Particle) :
    (Cosmic.wallRightStep w p).size = p.size := by
  simp only [Cosmic.wallRightStep]; split_ifs <;> rfl

lemma ceilingStep_y_lb (p : Particle) :
    p.size * 0.5 ≤ (Cosmic.ceilingStep p).y := by
  simp only [Cosmic.ceilingStep]
  split_ifs with h
  · exact le_refl _
  · exact le_of_not_lt h

lemma ceilingStep_x (p : Particle) : (Cosmic.ceilingStep p).x = p.x := by
  simp only [Cosmic.ceilingStep]; split_ifs <;> rfl

lemma ceilingStep_size (p : Particle) :
    (Cosmic.ceilingStep p).size = p.size := by
  simp only [Cosmic.ceilingStep]; split_ifs <;> rfl

lemma floorStep_y (h : ℚ) (p : Particle)
    (hh : p.size * 0.5 + p.size * 0.5 ≤ h) (hlb : p.size * 0.5 ≤ p.y) :
    p.size * 0.5 ≤ (Cosmic.floorStep h p).y ∧
    (Cosmic.floorStep h p).y ≤ h - p.size * 0.5 := by
  simp only [Cosmic.floorStep]
  split_ifs with h1 h2
  · exact ⟨by linarith, le_refl _⟩
  · exact ⟨by linarith, le_refl _⟩
  · exact ⟨hlb, le_of_not_lt h1⟩

lemma floorStep_x (h : ℚ) (p : Particle) : (Cosmic.floorStep h p).x = p.x := by
  simp only [Cosmic.floorStep]; split_ifs <;> rfl

lemma floorStep_size (h : ℚ) (p : Particle) :
    (Cosmic.floorStep h p).size = p.size := by
  simp only [Cosmic.floorStep]; split_ifs <;> rfl

/-- After the boundary pass, a particle no wider than the canvas lies in
`[margin, dimension − margin]` on both axes. -/
lemma boundaryStep_contained (w h : ℚ) (p : Particle)
    (hw : p.size * 0.5 + p.size * 0.5 ≤ w)
    (hh : p.size * 0.5 + p.size * 0.5 ≤ h) :
    p.size * 0.5 ≤ (Cosmic.boundaryStep w h p).x ∧
    (Cosmic.boundaryStep w h p).x ≤ w - p.size * 0.5 ∧
    p.size * 0.5 ≤ (Cosmic.boundaryStep w h p).y ∧
    (Cosmic.boundaryStep w h p).y ≤ h - p.size * 0.5 := by
  have hg : ({ p with grounded := false } : Particle).size = p.size := rfl
  set p0 : Particle := { p with grounded := false } with hp0
  have hxlb := wallLeftStep_x_lb p0
  have hs1 := wallLeftStep_size p0
  have hx := wallRightStep_x w (Cosmic.wallLeftStep p0)
    (by rw [hs1]; exact hw) (by rw [hs1]; exact hxlb)
  have hs2 := wallRightStep_size w (Cosmic.wallLeftStep p0)
  have hylb := ceilingStep_y_lb (Cosmic.wallRightStep w (Cosmic.wallLeftStep p0))
  have hs3 := ceilingStep_size (Cosmic.wallRightStep w (Cosmic.wallLeftStep p0))
  have hy := floorStep_y h
    (Cosmic.ceilingStep (Cosmic.wallRightStep w (Cosmic.wallLeftStep p0)))
    (by rw [hs3, hs2, hs1]; exact hh) (by rw [hs3]; exact hylb)
  have hxc := ceilingStep_x (Cosmic.wallRightStep w (Cosmic.wallLeftStep p0))
  have hxf := floorStep_x h
    (Cosmic.ceilingStep (Cosmic.wallRightStep w (Cosmic.wallLeftStep p0)))
  constructor
  · show p.size * 0.5 ≤ (Cosmic.boundaryStep w h p).x
    rw [Cosmic.boundaryStep, hxf, hxc]
    rw [hs1] at hx
    exact hx.1
  constructor
  · rw [Cosmic.boundaryStep, hxf, hxc]
    rw [hs1] at hx
    exact hx.2
  constructor
  · rw [Cosmic.boundaryStep]
    rw [hs3, hs2, hs1] at hy
    exact hy.1
  · rw [Cosmic.boundaryStep]
    rw [hs3, hs2, hs1] at hy
    exact hy.2

lemma rotationStep_x (p : Particle) : (Cosmic.rotationStep p).x = p.x := rfl
lemma rotationStep_y (p : Particle) : (Cosmic.rotationStep p).y = p.y := rfl

lemma lifeStep_size (p : Particle) : (Cosmic.lifeStep p).size = p.size := rfl

lemma fadeStep_size (p : Particle) : (Cosmic.fadeStep p).size = p.size := by
  simp only [Cosmic.fadeStep]; split_ifs <;> rfl

lemma gravityStep_size (p : Particle) :
    (Cosmic.gravityStep p).size = p.size := rfl
lemma frictionStep_size (p : Particle) :
    (Cosmic.frictionStep p).size = p.size := rfl

lemma capStep_size (sq : ℚ → ℚ) (p : Particle) :
    (Cosmic.capStep sq p).size = p.size := by
  simp only [Cosmic.capStep]; split_ifs <;> rfl

lemma fieldStep_size (m : Mouse) (sq : ℚ → ℚ) (rnd : ℚ) (p : Particle) :
    (Cosmic.fieldStep m sq rnd p).size = p.size := by
  simp only [Cosmic.fieldStep]; split_ifs <;> rfl

lemma integrateStep_size (p : Particle) :
    (Cosmic.integrateStep p).size = p.size := rfl

/-- The whole pre-boundary pipeline leaves `size` untouched. -/
lemma preBoundary_size (m : Mouse) (sq : ℚ → ℚ) (rnd : ℚ) (p : Particle) :
    (Cosmic.integrateStep (Cosmic.fieldStep m sq rnd (Cosmic.capStep sq
      (Cosmic.frictionStep (Cosmic.gravityStep p))))).size = p.size := by
  rw [integrateStep_size, fieldStep_size, capStep_size, frictionStep_size,
    gravityStep_size]

/-- The pipeline from gravity to rotation keeps a small-enough particle's
position within the margins. -/
lemma pipeline_contained (m : Mouse) (sq : ℚ → ℚ) (rnd w h : ℚ)
    (r : Particle)
    (hw : r.size * 0.5 + r.size * 0.5 ≤ w)
    (hh : r.size * 0.5 + r.size * 0.5 ≤ h) :
    r.size * 0.5 ≤ (Cosmic.rotationStep (Cosmic.boundaryStep w h
      (Cosmic.integrateStep (Cosmic.fieldStep m sq rnd (Cosmic.capStep sq
        (Cosmic.frictionStep (Cosmic.gravityStep r))))))).x ∧
    (Cosmic.rotationStep (Cosmic.boundaryStep w h
      (Cosmic.integrateStep (Cosmic.fieldStep m sq rnd (Cosmic.capStep sq
        (Cosmic.frictionStep (Cosmic.gravityStep r))))))).x
      ≤ w - r.size * 0.5 ∧
    r.size * 0.5 ≤ (Cosmic.rotationStep (Cosmic.boundaryStep w h
      (Cosmic.integrateStep (Cosmic.fieldStep m sq rnd (Cosmic.capStep sq
        (Cosmic.frictionStep (Cosmic.gravityStep r))))))).y ∧
    (Cosmic.rotationStep (Cosmic.boundaryStep w h
      (Cosmic.integrateStep (Cosmic.fieldStep m sq rnd (Cosmic.capStep sq
        (Cosmic.frictionStep (Cosmic.gravityStep r))))))).y
      ≤ h - r.size * 0.5 := by
  have hs := preBoundary_size m sq rnd r
  have hb := boundaryStep_contained w h
    (Cosmic.integrateStep (Cosmic.fieldStep m sq rnd (Cosmic.capStep sq
      (Cosmic.frictionStep (Cosmic.gravityStep r)))))
    (by rw [hs]; exact hw) (by rw [hs]; exact hh)
  rw [hs] at hb
  simpa [rotationStep_x, rotationStep_y] using hb

/-- A particle that survives the update step went through the whole
physics pipeline applied to a particle of the same size. -/
lemma update_active_eq (m : Mouse) (w h : ℚ) (sq : ℚ → ℚ) (rnd : ℚ)
    (p : Particle) (hact : (Cosmic.update m w h sq rnd p).active = true) :
    ∃ r : Particle, r.size = p.size ∧
      Cosmic.update m w h sq rnd p
        = Cosmic.rotationStep (Cosmic.boundaryStep w h (Cosmic.integrateStep
          (Cosmic.fieldStep m sq rnd (Cosmic.capStep sq (Cosmic.frictionStep
            (Cosmic.gravityStep r)))))) := by
  simp only [Cosmic.update] at hact ⊢
  by_cases hl : (Cosmic.lifeStep p).life ≤ 0
  · rw [if_pos hl] at hact
    exact absurd hact (by simp)
  · rw [if_neg hl] at hact ⊢
    exact ⟨Cosmic.fadeStep (Cosmic.lifeStep p),
      by rw [fadeStep_size, lifeStep_size], rfl⟩

/-- C6 (amended): provided the particle fits in the canvas
(`2 · margin ≤ w` and `2 · margin ≤ h`, with `margin = size * 0.5`), every
particle still active after the update step lies within
`[margin, dimension − margin]` on both axes.  (Without that proviso the
claim fails: the clamps are applied left-then-right and top-then-bottom,
so the last clamp wins — see the counterexample.) -/
theorem boundary_containment (p : Particle) (m : Mouse) (w h rnd : ℚ)
    (sq : ℚ → ℚ)
    (hw : p.size * 0.5 + p.size * 0.5 ≤ w)
    (hh : p.size * 0.5 + p.size * 0.5 ≤ h)
    (hact : (Cosmic.update m w h sq rnd p).active = true) :
    p.size * 0.5 ≤ (Cosmic.update m w h sq rnd p).x ∧
    (Cosmic.update m w h sq rnd p).x ≤ w - p.size * 0.5 ∧
    p.size * 0.5 ≤ (Cosmic.update m w h sq rnd p).y ∧
    (Cosmic.update m w h sq rnd p).y ≤ h - p.size * 0.5 := by
  obtain ⟨r, hrs, heq⟩ := update_active_eq m w h sq rnd p hact
  rw [← hrs] at hw hh
  rw [heq, ← hrs]
  exact pipeline_contained m sq rnd w h r hw hh

/-- A particle (size 10, margin 5) wider than an 8-pixel-wide canvas. -/
def wideP : Particle :=
  { Particle.new 0 with
    x := 0, y := 50, vx := 0, vy := -(1 / 125), size := 10, mass := 1,
    lifeDecay := 1 / 1000, life := 1, scale := 1, targetScale := 1,
    active := true }

/-- C6, counterexample: on an 8-pixel-wide canvas a still-active particle
of size 10 (margin 5) ends the update at `x = 3 < margin`, because the
left clamp is overridden by the right clamp (`w - margin = 3`), so the
claimed containment `x ∈ [margin, w - margin]` fails for all inputs where
the canvas is narrower than the particle. -/
theorem boundary_containment_cex :
    (Cosmic.update idleMouse 8 100 demoSqrt 0 wideP).active = true ∧
    (Cosmic.update idleMouse 8 100 demoSqrt 0 wideP).x < wideP.size * 0.5 := by
  constructor <;>
    norm_num [Cosmic.update, Cosmic.lifeStep, Cosmic.fadeStep,
      Cosmic.gravityStep, Cosmic.frictionStep, Cosmic.capStep,
      Cosmic.fieldStep, Cosmic.integrateStep, Cosmic.boundaryStep,
      Cosmic.wallLeftStep, Cosmic.wallRightStep, Cosmic.ceilingStep,
      Cosmic.floorStep, Cosmic.rotationStep, Cosmic.gravity,
      Cosmic.friction, Cosmic.maxVelocity, Cosmic.bounciness,
      Cosmic.groundFriction, Cosmic.cursorFieldRadius, demoSqrt, wideP,
      idleMouse, Particle.new]

/-- A small particle well inside a 100×100 canvas. -/
def tameP : Particle :=
  { Particle.new 0 with
    x := 50, y := 50, vx := 0, vy := -(1 / 125), size := 2, mass := 1,
    lifeDecay := 1 / 1000, life := 1, scale := 1, targetScale := 1,
    active := true }

/-- Witness for C6 (amended): the containment theorem applied to a
concrete in-bounds update. -/
theorem boundary_containment_witness :
    tameP.size * 0.5 + tameP.size * 0.5 ≤ (100 : ℚ) ∧
    (Cosmic.update idleMouse 100 100 demoSqrt 0 tameP).active = true ∧
    (tameP.size * 0.5 ≤ (Cosmic.update idleMouse 100 100 demoSqrt 0 tameP).x ∧
      (Cosmic.update idleMouse 100 100 demoSqrt 0 tameP).x
        ≤ 100 - tameP.size * 0.5 ∧
      tameP.size * 0.5 ≤ (Cosmic.update idleMouse 100 100 demoSqrt 0 tameP).y ∧
      (Cosmic.update idleMouse 100 100 demoSqrt 0 tameP).y
        ≤ 100 - tameP.size * 0.5) := by
  have hw : tameP.size * 0.5 + tameP.size * 0.5 ≤ (100 : ℚ) := by
    norm_num [tameP, Particle.new]
  have hact : (Cosmic.update idleMouse 100 100 demoSqrt 0 tameP).active
      = true := by
    norm_num [Cosmic.update, Cosmic.lifeStep, Cosmic.fadeStep,
      Cosmic.gravityStep, Cosmic.frictionStep, Cosmic.capStep,
      Cosmic.fieldStep, Cosmic.integrateStep, Cosmic.boundaryStep,
      Cosmic.wallLeftStep, Cosmic.wallRightStep, Cosmic.ceilingStep,
      Cosmic.floorStep, Cosmic.rotationStep, Cosmic.gravity,
      Cosmic.friction, Cosmic.maxVelocity, Cosmic.bounciness,
      Cosmic.groundFriction, Cosmic.cursorFieldRadius, demoSqrt, tameP,
      idleMouse, Particle.new]
  exact ⟨hw, hact,
    boundary_containment tameP idleMouse 100 100 0 demoSqrt hw hw hact⟩

/-
C8 — velocity cap.
-/

/-- After the cap step the squared speed is at most `maxVelocity²`
(assuming `Math.sqrt` is correct at the capped quantity). -/
lemma capStep_speedSq (sq : ℚ → ℚ) (q : Particle)
    (hsq : SqOkAt sq (Cosmic.speedSq q)) :
    Cosmic.speedSq (Cosmic.capStep sq q) ≤ Cosmic.maxVelocity ^ 2 := by
  obtain ⟨h0, hs⟩ := hsq
  simp only [Cosmic.speedSq] at hs ⊢
  simp only [Cosmic.capStep, Cosmic.speedSq]
  split_ifs with h
  · have hd : sq (q.vx * q.vx + q.vy * q.vy) ≠ 0 := by
      intro h2
      rw [h2] at h
      norm_num [Cosmic.maxVelocity] at h
    have key : q.vx * (Cosmic.maxVelocity / sq (q.vx * q.vx + q.vy * q.vy))
          * (q.vx * (Cosmic.maxVelocity / sq (q.vx * q.vx + q.vy * q.vy)))
        + q.vy * (Cosmic.maxVelocity / sq (q.vx * q.vx + q.vy * q.vy))
          * (q.vy * (Cosmic.maxVelocity / sq (q.vx * q.vx + q.vy * q.vy)))
        = Cosmic.maxVelocity ^ 2 := by
      field_simp
      nlinarith [hs]
    simp only [key]
    exact le_refl _
  · push_neg at h
    have hs0 : 0 ≤ sq (q.vx * q.vx + q.vy * q.vy) := by
      simpa [Cosmic.speedSq] using h0
    calc q.vx * q.vx + q.vy * q.vy
        = sq (q.vx * q.vx + q.vy * q.vy)
          * sq (q.vx * q.vx + q.vy * q.vy) := hs.symm
      _ ≤ Cosmic.maxVelocity * Cosmic.maxVelocity :=
          mul_self_le_mul_self hs0 h
      _ = Cosmic.maxVelocity ^ 2 := by ring

lemma wallLeftStep_v (p : Particle) :
    |(Cosmic.wallLeftStep p).vx| ≤ |p.vx| ∧ (Cosmic.wallLeftStep p).vy = p.vy := by
  simp only [Cosmic.wallLeftStep, Cosmic.bounciness]
  split_ifs
  · refine ⟨?_, rfl⟩
    rw [abs_mul, abs_abs]
    have := abs_nonneg p.vx
    have h06 : |(0.6 : ℚ)| = 0.6 := by norm_num
    rw [h06]
    linarith
  · exact ⟨le_refl _, rfl⟩

lemma wallRightStep_v (w : ℚ) (p : Particle) :
    |(Cosmic.wallRightStep w p).vx| ≤ |p.vx| ∧
    (Cosmic.wallRightStep w p).vy = p.vy := by
  simp only [Cosmic.wallRightStep, Cosmic.bounciness]
  split_ifs
  · refine ⟨?_, rfl⟩
    rw [abs_mul, abs_neg, abs_abs]
    have := abs_nonneg p.vx
    have h06 : |(0.6 : ℚ)| = 0.6 := by norm_num
    rw [h06]
    linarith
  · exact ⟨le_refl _, rfl⟩

lemma ceilingStep_v (p : Particle) :
    (Cosmic.ceilingStep p).vx = p.vx ∧ |(Cosmic.ceilingStep p).vy| ≤ |p.vy| := by
  simp only [Cosmic.ceilingStep, Cosmic.bounciness]
  split_ifs
  · refine ⟨rfl, ?_⟩
    rw [abs_mul, abs_mul, abs_abs]
    have := abs_nonneg p.vy
    have h06 : |(0.6 : ℚ)| = 0.6 := by norm_num
    have h05 : |(0.5 : ℚ)| = 0.5 := by norm_num
    rw [h06, h05]
    linarith
  · exact ⟨rfl, le_refl _⟩

lemma floorStep_v (h : ℚ) (p : Particle) :
    |(Cosmic.floorStep h p).vx| ≤ |p.vx| ∧
    |(Cosmic.floorStep h p).vy| ≤ |p.vy| := by
  simp only [Cosmic.floorStep, Cosmic.bounciness, Cosmic.groundFriction]
  split_ifs
  · constructor
    · rw [abs_mul, abs_mul]
      have := abs_nonneg p.vx
      have ha : |(0.965 : ℚ)| = 0.965 := by norm_num
      have hb : |(0.97 : ℚ)| = 0.97 := by norm_num
      rw [ha, hb]
      nlinarith
    · simp only [abs_zero]
      exact abs_nonneg p.vy
  · constructor
    · rw [abs_mul]
      have := abs_nonneg p.vx
      have ha : |(0.965 : ℚ)| = 0.965 := by norm_num
      rw [ha]
      linarith
    · rw [abs_mul, abs_neg, abs_abs]
      have := abs_nonneg p.vy
      have h06 : |(0.6 : ℚ)| = 0.6 := by norm_num
      rw [h06]
      linarith
  · exact ⟨le_refl _, le_refl _⟩

/-- The boundary pass never increases the squared speed: every branch
multiplies a velocity component by a factor of magnitude at most 1. -/
lemma boundaryStep_speedSq (w h : ℚ) (q : Particle) :
    Cosmic.speedSq (Cosmic.boundaryStep w h q) ≤ Cosmic.speedSq q := by
  have hg : Cosmic.speedSq ({ q with grounded := false } : Particle)
      = Cosmic.speedSq q := rfl
  set q0 : Particle := { q with grounded := false } with hq0
  obtain ⟨h1x, h1y⟩ := wallLeftStep_v q0
  obtain ⟨h2x, h2y⟩ := wallRightStep_v w (Cosmic.wallLeftStep q0)
  obtain ⟨h3x, h3y⟩ := ceilingStep_v (Cosmic.wallRightStep w (Cosmic.wallLeftStep q0))
  obtain ⟨h4x, h4y⟩ := floorStep_v h
    (Cosmic.ceilingStep (Cosmic.wallRightStep w (Cosmic.wallLeftStep q0)))
  have hvx : |(Cosmic.boundaryStep w h q).vx| ≤ |q.vx| := by
    rw [Cosmic.boundaryStep]
    calc |(Cosmic.floorStep h (Cosmic.ceilingStep (Cosmic.wallRightStep w
          (Cosmic.wallLeftStep q0)))).vx|
        ≤ |(Cosmic.ceilingStep (Cosmic.wallRightStep w
            (Cosmic.wallLeftStep q0))).vx| := h4x
      _ = |(Cosmic.wallRightStep w (Cosmic.wallLeftStep q0)).vx| := by rw [h3x]
      _ ≤ |(Cosmic.wallLeftStep q0).vx| := h2x
      _ ≤ |q0.vx| := h1x
  have hvy : |(Cosmic.boundaryStep w h q).vy| ≤ |q.vy| := by
    rw [Cosmic.boundaryStep]
    calc |(Cosmic.floorStep h (Cosmic.ceilingStep (Cosmic.wallRightStep w
          (Cosmic.wallLeftStep q0)))).vy|
        ≤ |(Cosmic.ceilingStep (Cosmic.wallRightStep w
            (Cosmic.wallLeftStep q0))).vy| := h4y
      _ ≤ |(Cosmic.wallRightStep w (Cosmic.wallLeftStep q0)).vy| := h3y
      _ = |(Cosmic.wallLeftStep q0).vy| := by rw [h2y]
      _ = |q0.vy| := by rw [h1y]
  simp only [Cosmic.speedSq]
  nlinarith [hvx, hvy, abs_nonneg (Cosmic.boundaryStep w h q).vx,
    abs_nonneg (Cosmic.boundaryStep w h q).vy, abs_nonneg q.vx,
    abs_nonneg q.vy, sq_abs (Cosmic.boundaryStep w h q).vx,
    sq_abs (Cosmic.boundaryStep w h q).vy, sq_abs q.vx, sq_abs q.vy,
    abs_mul_abs_self (Cosmic.boundaryStep w h q).vx,
    abs_mul_abs_self (Cosmic.boundaryStep w h q).vy,
    abs_mul_abs_self q.vx, abs_mul_abs_self q.vy]

lemma rotationStep_speedSq (p : Particle) :
    Cosmic.speedSq (Cosmic.rotationStep p) = Cosmic.speedSq p := rfl

lemma integrateStep_speedSq (p : Particle) :
    Cosmic.speedSq (Cosmic.integrateStep p) = Cosmic.speedSq p := rfl

/-- The situations in which `update` skips the cursor-field block: pointer
pressed, tracked position at or beyond the sentinel, inside the 2-pixel
dead zone, or beyond the field radius. -/
def FieldInactive (m : Mouse) (p : Particle) : Prop :=
  m.isDown = true ∨ m.x ≤ 0 ∨
  (p.x - m.x) * (p.x - m.x) + (p.y - m.y) * (p.y - m.y) ≤ 4 ∨
  Cosmic.cursorFieldRadius * Cosmic.cursorFieldRadius
    ≤ (p.x - m.x) * (p.x - m.x) + (p.y - m.y) * (p.y - m.y)

lemma fieldStep_of_inactive (m : Mouse) (sq : ℚ → ℚ) (rnd : ℚ)
    (p : Particle) (h : FieldInactive m p) :
    Cosmic.fieldStep m sq rnd p = p := by
  rcases h with h | h | h | h
  · exact fieldStep_of_isDown m sq rnd p h
  · exact fieldStep_of_offCanvas m sq rnd p h
  · exact fieldStep_of_close m sq rnd p h
  · exact fieldStep_of_far m sq rnd p h

lemma lifeStep_x (p : Particle) : (Cosmic.lifeStep p).x = p.x := rfl
lemma lifeStep_y (p : Particle) : (Cosmic.lifeStep p).y = p.y := rfl

lemma fadeStep_x (p : Particle) : (Cosmic.fadeStep p).x = p.x := by
  simp only [Cosmic.fadeStep]; split_ifs <;> rfl
lemma fadeStep_y (p : Particle) : (Cosmic.fadeStep p).y = p.y := by
  simp only [Cosmic.fadeStep]; split_ifs <;> rfl

lemma gravityStep_x (p : Particle) : (Cosmic.gravityStep p).x = p.x := rfl
lemma gravityStep_y (p : Particle) : (Cosmic.gravityStep p).y = p.y := rfl
lemma frictionStep_x (p : Particle) : (Cosmic.frictionStep p).x = p.x := rfl
lemma frictionStep_y (p : Particle) : (Cosmic.frictionStep p).y = p.y := rfl

lemma capStep_x (sq : ℚ → ℚ) (p : Particle) :
    (Cosmic.capStep sq p).x = p.x := by
  simp only [Cosmic.capStep]; split_ifs <;> rfl
lemma capStep_y (sq : ℚ → ℚ) (p : Particle) :
    (Cosmic.capStep sq p).y = p.y := by
  simp only [Cosmic.capStep]; split_ifs <;> rfl

/-- `FieldInactive` only reads the particle's position, which is unchanged
from `lifeStep` up to the cursor-field step. -/
lemma fieldInactive_pre (m : Mouse) (sq : ℚ → ℚ) (p : Particle)
    (h : FieldInactive m p) :
    FieldInactive m (Cosmic.capStep sq (Cosmic.frictionStep
      (Cosmic.gravityStep (Cosmic.fadeStep (Cosmic.lifeStep p))))) := by
  unfold FieldInactive at h ⊢
  rw [capStep_x, capStep_y, frictionStep_x, frictionStep_y, gravityStep_x,
    gravityStep_y, fadeStep_x, fadeStep_y, lifeStep_x, lifeStep_y]
  exact h

/-- C8 (amended): the cap is applied in the middle of each update — right
after gravity and friction, before the cursor field — so (i) the capped
velocity itself never exceeds `maxVelocity`, and (ii) whenever the
cursor-field block does not fire (pointer pressed, cursor off-canvas, or
particle outside the annulus of influence), the particle's speed at the
end of the update is at most `maxVelocity`.  The claim as stated — the
speed of every active particle never exceeds `maxVelocity` — is false:
the cursor-field impulse is added after the cap (see the counterexample),
and the second variant has no cap at all. -/
theorem velocity_cap (p : Particle) (m : Mouse) (w h rnd : ℚ)
    (sq : ℚ → ℚ)
    (hsq : SqOkAt sq (Cosmic.speedSq (Cosmic.frictionStep
      (Cosmic.gravityStep (Cosmic.fadeStep (Cosmic.lifeStep p))))))
    (hfield : FieldInactive m p)
    (hact : (Cosmic.update m w h sq rnd p).active = true) :
    (∀ (q : Particle) (sq2 : ℚ → ℚ), SqOkAt sq2 (Cosmic.speedSq q) →
      Cosmic.speedSq (Cosmic.capStep sq2 q) ≤ Cosmic.maxVelocity ^ 2) ∧
    Cosmic.speedSq (Cosmic.update m w h sq rnd p)
      ≤ Cosmic.maxVelocity ^ 2 := by
  refine ⟨fun q sq2 hq => capStep_speedSq sq2 q hq, ?_⟩
  simp only [Cosmic.update] at hact ⊢
  by_cases hl : (Cosmic.lifeStep p).life ≤ 0
  · rw [if_pos hl] at hact
    exact absurd hact (by simp)
  · rw [if_neg hl] at hact ⊢
    rw [fieldStep_of_inactive m sq rnd _ (fieldInactive_pre m sq p hfield)]
    rw [rotationStep_speedSq]
    calc Cosmic.speedSq (Cosmic.boundaryStep w h (Cosmic.integrateStep
          (Cosmic.capStep sq (Cosmic.frictionStep (Cosmic.gravityStep
            (Cosmic.fadeStep (Cosmic.lifeStep p)))))))
        ≤ Cosmic.speedSq (Cosmic.integrateStep (Cosmic.capStep sq
            (Cosmic.frictionStep (Cosmic.gravityStep
              (Cosmic.fadeStep (Cosmic.lifeStep p)))))) :=
          boundaryStep_speedSq w h _
      _ = Cosmic.speedSq (Cosmic.capStep sq (Cosmic.frictionStep
            (Cosmic.gravityStep (Cosmic.fadeStep (Cosmic.lifeStep p))))) :=
          integrateStep_speedSq _
      _ ≤ Cosmic.maxVelocity ^ 2 := capStep_speedSq sq _ hsq

/-- A fast cursor at `(100, 100)` (smoothed velocity `(300, 400)`),
pointer up. -/
def speedyMouse : Mouse :=
  { idleMouse with x := 100, y := 100, vx := 300, vy := 400 }

/-- An active cube at rest at distance 5 from `(100, 100)`. -/
def joltP : Particle :=
  { Particle.new 0 with
    x := 103, y := 104, vx := 0, vy := -(1 / 125), size := 4, mass := 1,
    lifeDecay := 1 / 1000, life := 1, scale := 1, targetScale := 1,
    active := true }

/-- C8, counterexample: the cursor-field step runs after the cap, and its
momentum-transfer term `mouse.v * falloff * 0.12` is unbounded in the
cursor velocity, so a resting particle near a fast cursor ends the update
still active with squared speed far above `maxVelocity²`. -/
theorem velocity_cap_cex :
    (Cosmic.update speedyMouse 100000 100000 demoSqrt 0 joltP).active
      = true ∧
    Cosmic.maxVelocity ^ 2
      < Cosmic.speedSq (Cosmic.update speedyMouse 100000 100000 demoSqrt 0
          joltP) := by
  constructor <;>
    norm_num [Cosmic.update, Cosmic.lifeStep, Cosmic.fadeStep,
      Cosmic.gravityStep, Cosmic.frictionStep, Cosmic.capStep,
      Cosmic.fieldStep, Cosmic.integrateStep, Cosmic.boundaryStep,
      Cosmic.wallLeftStep, Cosmic.wallRightStep, Cosmic.ceilingStep,
      Cosmic.floorStep, Cosmic.rotationStep, Cosmic.speedSq,
      Cosmic.gravity, Cosmic.friction, Cosmic.maxVelocity,
      Cosmic.bounciness, Cosmic.groundFriction, Cosmic.cursorFieldRadius,
      Cosmic.cursorFieldForce, Cosmic.cursorMomentumTransfer, min_def,
      demoSqrt, joltP, speedyMouse, idleMouse, Particle.new]

/-- Witness for C8 (amended): the cap theorem applied to a concrete
update with the cursor parked off-canvas. -/
theorem velocity_cap_witness :
    FieldInactive idleMouse tameP ∧
    (Cosmic.update idleMouse 100 100 demoSqrt 0 tameP).active = true ∧
    ((∀ (q : Particle) (sq2 : ℚ → ℚ), SqOkAt sq2 (Cosmic.speedSq q) →
        Cosmic.speedSq (Cosmic.capStep sq2 q) ≤ Cosmic.maxVelocity ^ 2) ∧
      Cosmic.speedSq (Cosmic.update idleMouse 100 100 demoSqrt 0 tameP)
        ≤ Cosmic.maxVelocity ^ 2) := by
  have hfield : FieldInactive idleMouse tameP := by
    right; left
    norm_num [idleMouse]
  have hsq : SqOkAt demoSqrt (Cosmic.speedSq (Cosmic.frictionStep
      (Cosmic.gravityStep (Cosmic.fadeStep (Cosmic.lifeStep tameP))))) := by
    norm_num [SqOkAt, Cosmic.speedSq, Cosmic.frictionStep,
      Cosmic.gravityStep, Cosmic.fadeStep, Cosmic.lifeStep,
      Cosmic.gravity, Cosmic.friction, demoSqrt, tameP, Particle.new]
  have hact : (Cosmic.update idleMouse 100 100 demoSqrt 0 tameP).active
      = true := by
    norm_num [Cosmic.update, Cosmic.lifeStep, Cosmic.fadeStep,
      Cosmic.gravityStep, Cosmic.frictionStep, Cosmic.capStep,
      Cosmic.fieldStep, Cosmic.integrateStep, Cosmic.boundaryStep,
      Cosmic.wallLeftStep, Cosmic.wallRightStep, Cosmic.ceilingStep,
      Cosmic.floorStep, Cosmic.rotationStep, Cosmic.gravity,
      Cosmic.friction, Cosmic.maxVelocity, Cosmic.bounciness,
      Cosmic.groundFriction, Cosmic.cursorFieldRadius, demoSqrt, tameP,
      idleMouse, Particle.new]
  exact ⟨hfield, hact,
    velocity_cap tameP idleMouse 100 100 0 demoSqrt hsq hfield hact⟩

/-
C7 — pairwise collision response.
-/

/-- The squared centre distance `handleCollisions` computes for a pair. -/
def pairDistSq (a b : Particle) : ℚ :=
  (b.x - a.x) * (b.x - a.x) + (b.y - a.y) * (b.y - a.y)

/-- The collision threshold `(a.size + b.size) * 0.55`. -/
def pairMinDist (a b : Particle) : ℚ := (a.size + b.size) * 0.55

/-- The scalar impulse `((dvx·nx + dvy·ny)) * 0.3` of `handleCollisions`. -/
def normalImpulse (sq : ℚ → ℚ) (a b : Particle) : ℚ :=
  ((a.vx - b.vx) * ((b.x - a.x) / sq (pairDistSq a b))
    + (a.vy - b.vy) * ((b.y - a.y) / sq (pairDistSq a b))) * 0.3

/-- The projections of a positive collision: positions separated along the
normal, velocities changed by the impulse. -/
lemma collidePair_pos_proj (isDown : Bool) (sq : ℚ → ℚ) (pr : PairRnd)
    (a b : Particle) (room : Bool)
    (hguard : (b.x - a.x) * (b.x - a.x) + (b.y - a.y) * (b.y - a.y)
        < (a.size + b.size) * 0.55 * ((a.size + b.size) * 0.55)
      ∧ (0.1 : ℚ) < (b.x - a.x) * (b.x - a.x) + (b.y - a.y) * (b.y - a.y)) :
    (Cosmic.collidePair isDown sq pr a b room).1.x
      = a.x - (b.x - a.x) / sq (pairDistSq a b)
        * (pairMinDist a b - sq (pairDistSq a b)) * 0.35 ∧
    (Cosmic.collidePair isDown sq pr a b room).1.y
      = a.y - (b.y - a.y) / sq (pairDistSq a b)
        * (pairMinDist a b - sq (pairDistSq a b)) * 0.35 ∧
    (Cosmic.collidePair isDown sq pr a b room).2.1.x
      = b.x + (b.x - a.x) / sq (pairDistSq a b)
        * (pairMinDist a b - sq (pairDistSq a b)) * 0.35 ∧
    (Cosmic.collidePair isDown sq pr a b room).2.1.y
      = b.y + (b.y - a.y) / sq (pairDistSq a b)
        * (pairMinDist a b - sq (pairDistSq a b)) * 0.35 ∧
    (Cosmic.collidePair isDown sq pr a b room).1.vx
      = a.vx - normalImpulse sq a b * ((b.x - a.x) / sq (pairDistSq a b)) ∧
    (Cosmic.collidePair isDown sq pr a b room).1.vy
      = a.vy - normalImpulse sq a b * ((b.y - a.y) / sq (pairDistSq a b)) ∧
    (Cosmic.collidePair isDown sq pr a b room).2.1.vx
      = b.vx + normalImpulse sq a b * ((b.x - a.x) / sq (pairDistSq a b)) ∧
    (Cosmic.collidePair isDown sq pr a b room).2.1.vy
      = b.vy + normalImpulse sq a b * ((b.y - a.y) / sq (pairDistSq a b)) ∧
    ((Cosmic.collidePair isDown sq pr a b room).2.2.isSome = true ↔
      (isDown = true ∧ 0.15 < |normalImpulse sq a b|
        ∧ pr.chance < Cosmic.collisionSpawnChance ∧ room = true)) := by
  simp only [Cosmic.collidePair]
  rw [if_pos hguard]
  simp only [pairDistSq, pairMinDist, normalImpulse]
  refine ⟨trivial, trivial, trivial, trivial, trivial, trivial, trivial,
    trivial, ?_⟩
  split_ifs with h
  · simp only [Option.isSome_some, true_iff]
    exact h
  · simp only [Option.isSome_none, Bool.false_eq_true, false_iff]
    exact h

lemma separation_algebra (dx dy d k : ℚ) (hd : d ≠ 0)
    (hdd : d * d = dx * dx + dy * dy) :
    (dx + 2 * (dx / d * (k - d) * 0.35)) ^ 2
      + (dy + 2 * (dy / d * (k - d) * 0.35)) ^ 2
      = (0.3 * d + 0.7 * k) ^ 2 := by
  have hq : d * ((0.3 * d + 0.7 * k) / d) = 0.3 * d + 0.7 * k := by
    field_simp
  have e1 : dx + 2 * (dx / d * (k - d) * 0.35)
      = dx * ((0.3 * d + 0.7 * k) / d) := by
    field_simp
    ring
  have e2 : dy + 2 * (dy / d * (k - d) * 0.35)
      = dy * ((0.3 * d + 0.7 * k) / d) := by
    field_simp
    ring
  rw [e1, e2]
  calc (dx * ((0.3 * d + 0.7 * k) / d)) ^ 2
        + (dy * ((0.3 * d + 0.7 * k) / d)) ^ 2
      = (dx * dx + dy * dy) * ((0.3 * d + 0.7 * k) / d) ^ 2 := by ring
    _ = (d * d) * ((0.3 * d + 0.7 * k) / d) ^ 2 := by rw [hdd]
    _ = (d * ((0.3 * d + 0.7 * k) / d)) ^ 2 := by ring
    _ = (0.3 * d + 0.7 * k) ^ 2 := by rw [hq]

lemma restitution_algebra (dx dy d avx avy bvx bvy : ℚ) (hd : d ≠ 0)
    (hdd : d * d = dx * dx + dy * dy) :
    ((avx - ((avx - bvx) * (dx / d) + (avy - bvy) * (dy / d)) * 0.3 * (dx / d))
        - (bvx + ((avx - bvx) * (dx / d) + (avy - bvy) * (dy / d)) * 0.3
          * (dx / d))) * (dx / d)
      + ((avy - ((avx - bvx) * (dx / d) + (avy - bvy) * (dy / d)) * 0.3
          * (dy / d))
        - (bvy + ((avx - bvx) * (dx / d) + (avy - bvy) * (dy / d)) * 0.3
          * (dy / d))) * (dy / d)
      = 0.4 * ((avx - bvx) * (dx / d) + (avy - bvy) * (dy / d)) := by
  have hn : (dx / d) ^ 2 + (dy / d) ^ 2 = 1 := by
    field_simp
    linarith [hdd]
  linear_combination
    (-0.6 * ((avx - bvx) * (dx / d) + (avy - bvy) * (dy / d))) * hn

/-- The pair interaction never reads the masses. -/
lemma collidePair_mass_blind (isDown : Bool) (sq : ℚ → ℚ) (pr : PairRnd)
    (a b : Particle) (room : Bool) (μ ν : ℚ) :
    Cosmic.collidePair isDown sq pr { a with mass := μ }
        { b with mass := ν } room
      = ({ (Cosmic.collidePair isDown sq pr a b room).1 with mass := μ },
         { (Cosmic.collidePair isDown sq pr a b room).2.1 with mass := ν },
         (Cosmic.collidePair isDown sq pr a b room).2.2) := by
  simp only [Cosmic.collidePair]
  split_ifs <;> rfl

/-- On a two-element store the collision pass is exactly one pair
interaction at indices `(0, 1)`. -/
lemma handleCollisions_two (sq : ℚ → ℚ) (rnd : ℕ × ℕ → PairRnd)
    (st : Cosmic.SimState) (hlen : st.active.length = 2) :
    Cosmic.handleCollisions sq rnd st = Cosmic.collideAt sq rnd st (0, 1) := by
  rw [Cosmic.handleCollisions, hlen]
  rfl

/-- C7 (amended): for an overlapping pair of active cubes the interaction
body (i) moves the centres apart along the collision normal so that the new
squared distance is exactly `(0.3·dist + 0.7·minDist)²` — 70 % of the
overlap is removed, but the pair is still overlapping after the pass (the
separation is proportional to overlap only; mass plays no role in it);
(ii) scales the relative velocity along the collision normal by the factor
0.4 (restitution-style momentum exchange — its magnitude decreases); and
(iii) requests explosion spawns only while the pointer is down and the
impulse magnitude exceeds the 0.15 threshold.  On a two-particle store the
whole `handleCollisions` pass is exactly one such pair interaction. -/
theorem collision_pair_semantics (isDown : Bool) (sq : ℚ → ℚ) (pr : PairRnd)
    (a b : Particle) (room : Bool)
    (hsa : 0 < a.size) (hsb : 0 < b.size)
    (hlt : pairDistSq a b < pairMinDist a b * pairMinDist a b)
    (h01 : 0.1 < pairDistSq a b)
    (hsq : SqOkAt sq (pairDistSq a b)) :
    ((Cosmic.collidePair isDown sq pr a b room).2.1.x
        - (Cosmic.collidePair isDown sq pr a b room).1.x) ^ 2
      + ((Cosmic.collidePair isDown sq pr a b room).2.1.y
        - (Cosmic.collidePair isDown sq pr a b room).1.y) ^ 2
      = (0.3 * sq (pairDistSq a b) + 0.7 * pairMinDist a b) ^ 2 ∧
    ((Cosmic.collidePair isDown sq pr a b room).2.1.x
        - (Cosmic.collidePair isDown sq pr a b room).1.x) ^ 2
      + ((Cosmic.collidePair isDown sq pr a b room).2.1.y
        - (Cosmic.collidePair isDown sq pr a b room).1.y) ^ 2
      < pairMinDist a b * pairMinDist a b ∧
    ((Cosmic.collidePair isDown sq pr a b room).1.vx
        - (Cosmic.collidePair isDown sq pr a b room).2.1.vx)
        * ((b.x - a.x) / sq (pairDistSq a b))
      + ((Cosmic.collidePair isDown sq pr a b room).1.vy
        - (Cosmic.collidePair isDown sq pr a b room).2.1.vy)
        * ((b.y - a.y) / sq (pairDistSq a b))
      = 0.4 * ((a.vx - b.vx) * ((b.x - a.x) / sq (pairDistSq a b))
        + (a.vy - b.vy) * ((b.y - a.y) / sq (pairDistSq a b))) ∧
    ((Cosmic.collidePair isDown sq pr a b room).2.2.isSome = true →
      isDown = true ∧ 0.15 < |normalImpulse sq a b|) ∧
    (∀ μ ν : ℚ,
      Cosmic.collidePair isDown sq pr { a with mass := μ }
          { b with mass := ν } room
        = ({ (Cosmic.collidePair isDown sq pr a b room).1 with mass := μ },
           { (Cosmic.collidePair isDown sq pr a b room).2.1 with mass := ν },
           (Cosmic.collidePair isDown sq pr a b room).2.2)) ∧
    (∀ (sq2 : ℚ → ℚ) (rnd : ℕ × ℕ → PairRnd) (st : Cosmic.SimState),
      st.active.length = 2 →
      Cosmic.handleCollisions sq2 rnd st
        = Cosmic.collideAt sq2 rnd st (0, 1)) := by
  obtain ⟨hd0, hdd⟩ := hsq
  have hDpos : 0 < pairDistSq a b := lt_trans (by norm_num) h01
  have hdne : sq (pairDistSq a b) ≠ 0 := by
    intro h
    rw [h, mul_zero] at hdd
    rw [← hdd] at hDpos
    exact lt_irrefl 0 hDpos
  have hdpos : 0 < sq (pairDistSq a b) := lt_of_le_of_ne hd0 (Ne.symm hdne)
  have hmpos : 0 < pairMinDist a b := by
    unfold pairMinDist
    nlinarith
  have hdltm : sq (pairDistSq a b) < pairMinDist a b := by
    by_contra hcon
    push_neg at hcon
    have hsq2 : pairMinDist a b * pairMinDist a b
        ≤ sq (pairDistSq a b) * sq (pairDistSq a b) :=
      mul_le_mul hcon hcon hmpos.le hd0
    rw [hdd] at hsq2
    linarith [hlt]
  have hguard : (b.x - a.x) * (b.x - a.x) + (b.y - a.y) * (b.y - a.y)
      < (a.size + b.size) * 0.55 * ((a.size + b.size) * 0.55)
    ∧ (0.1 : ℚ) < (b.x - a.x) * (b.x - a.x) + (b.y - a.y) * (b.y - a.y) := by
    simp only [pairDistSq, pairMinDist] at hlt h01
    exact ⟨hlt, h01⟩
  obtain ⟨h1, h2, h3, h4, h5, h6, h7, h8, h9⟩ :=
    collidePair_pos_proj isDown sq pr a b room hguard
  have hdd2 : sq (pairDistSq a b) * sq (pairDistSq a b)
      = (b.x - a.x) * (b.x - a.x) + (b.y - a.y) * (b.y - a.y) := by
    rw [hdd]; rfl
  have hsepx : (Cosmic.collidePair isDown sq pr a b room).2.1.x
      - (Cosmic.collidePair isDown sq pr a b room).1.x
      = (b.x - a.x) + 2 * ((b.x - a.x) / sq (pairDistSq a b)
        * (pairMinDist a b - sq (pairDistSq a b)) * 0.35) := by
    rw [h1, h3]; ring
  have hsepy : (Cosmic.collidePair isDown sq pr a b room).2.1.y
      - (Cosmic.collidePair isDown sq pr a b room).1.y
      = (b.y - a.y) + 2 * ((b.y - a.y) / sq (pairDistSq a b)
        * (pairMinDist a b - sq (pairDistSq a b)) * 0.35) := by
    rw [h2, h4]; ring
  have hsep : ((Cosmic.collidePair isDown sq pr a b room).2.1.x
        - (Cosmic.collidePair isDown sq pr a b room).1.x) ^ 2
      + ((Cosmic.collidePair isDown sq pr a b room).2.1.y
        - (Cosmic.collidePair isDown sq pr a b room).1.y) ^ 2
      = (0.3 * sq (pairDistSq a b) + 0.7 * pairMinDist a b) ^ 2 := by
    rw [hsepx, hsepy]
    exact separation_algebra (b.x - a.x) (b.y - a.y) (sq (pairDistSq a b))
      (pairMinDist a b) hdne hdd2
  refine ⟨hsep, ?_, ?_, ?_, collidePair_mass_blind isDown sq pr a b room,
    handleCollisions_two⟩
  · rw [hsep]
    nlinarith [hdpos, hmpos, hdltm]
  · rw [h5, h6, h7, h8]
    have := restitution_algebra (b.x - a.x) (b.y - a.y)
      (sq (pairDistSq a b)) a.vx a.vy b.vx b.vy hdne hdd2
    calc (a.vx - normalImpulse sq a b * ((b.x - a.x) / sq (pairDistSq a b))
          - (b.vx + normalImpulse sq a b * ((b.x - a.x) / sq (pairDistSq a b))))
          * ((b.x - a.x) / sq (pairDistSq a b))
        + (a.vy - normalImpulse sq a b * ((b.y - a.y) / sq (pairDistSq a b))
          - (b.vy + normalImpulse sq a b * ((b.y - a.y) / sq (pairDistSq a b))))
          * ((b.y - a.y) / sq (pairDistSq a b))
        = ((a.vx - ((a.vx - b.vx) * ((b.x - a.x) / sq (pairDistSq a b))
              + (a.vy - b.vy) * ((b.y - a.y) / sq (pairDistSq a b))) * 0.3
            * ((b.x - a.x) / sq (pairDistSq a b)))
          - (b.vx + ((a.vx - b.vx) * ((b.x - a.x) / sq (pairDistSq a b))
              + (a.vy - b.vy) * ((b.y - a.y) / sq (pairDistSq a b))) * 0.3
            * ((b.x - a.x) / sq (pairDistSq a b))))
          * ((b.x - a.x) / sq (pairDistSq a b))
        + ((a.vy - ((a.vx - b.vx) * ((b.x - a.x) / sq (pairDistSq a b))
              + (a.vy - b.vy) * ((b.y - a.y) / sq (pairDistSq a b))) * 0.3
            * ((b.y - a.y) / sq (pairDistSq a b)))
          - (b.vy + ((a.vx - b.vx) * ((b.x - a.x) / sq (pairDistSq a b))
              + (a.vy - b.vy) * ((b.y - a.y) / sq (pairDistSq a b))) * 0.3
            * ((b.y - a.y) / sq (pairDistSq a b))))
          * ((b.y - a.y) / sq (pairDistSq a b)) := by
          simp only [normalImpulse]
      _ = 0.4 * ((a.vx - b.vx) * ((b.x - a.x) / sq (pairDistSq a b))
          + (a.vy - b.vy) * ((b.y - a.y) / sq (pairDistSq a b))) := this
  · intro hs
    obtain ⟨ha, hb, -, -⟩ := h9.mp hs
    exact ⟨ha, hb⟩

/-- Two overlapping size-10 cubes approaching head-on (distance 10,
threshold 11). -/
def clashA : Particle :=
  { Particle.new 0 with
    x := 100, y := 100, vx := 1, vy := 0, size := 10, mass := 1,
    lifeDecay := 1 / 1000, life := 1, scale := 1, targetScale := 1,
    active := true }

/-- Second cube of the clashing pair. -/
def clashB : Particle :=
  { Particle.new 1 with
    x := 106, y := 108, vx := -1, vy := 0, size := 10, mass := 1,
    lifeDecay := 1 / 1000, life := 1, scale := 1, targetScale := 1,
    active := true }

/-- Random draws for the clashing pair (chance 0.9 suppresses spawning). -/
def clashRnd : PairRnd := { chance := 0.9, countR := 0 }

/-- C7, counterexample: an overlapping pair is still overlapping after one
collision-processing pass (the separation removes only 70 % of the
overlap), and multiplying a particle's mass by 1000 yields the same
post-pass position — so the pass neither fully separates the pair nor
separates proportionally to mass, contrary to the claim. -/
theorem collision_pair_cex :
    pairDistSq clashA clashB
      < pairMinDist clashA clashB * pairMinDist clashA clashB ∧
    ((Cosmic.collidePair true demoSqrt clashRnd clashA clashB true).2.1.x
        - (Cosmic.collidePair true demoSqrt clashRnd clashA clashB true).1.x) ^ 2
      + ((Cosmic.collidePair true demoSqrt clashRnd clashA clashB true).2.1.y
        - (Cosmic.collidePair true demoSqrt clashRnd clashA clashB true).1.y) ^ 2
      < pairMinDist clashA clashB * pairMinDist clashA clashB ∧
    (Cosmic.collidePair true demoSqrt clashRnd
        { clashA with mass := 1000 } clashB true).1.x
      = (Cosmic.collidePair true demoSqrt clashRnd clashA clashB true).1.x := by
  refine ⟨?_, ?_, ?_⟩ <;>
    norm_num [Cosmic.collidePair, Cosmic.collisionSpawnChance,
      Cosmic.maxCollisionSpawns, pairDistSq, pairMinDist, demoSqrt,
      clashA, clashB, clashRnd, Particle.new]

/-- Witness for C7 (amended): the pair-semantics theorem applied to the
concrete clashing pair; the extracted conclusion is the
still-overlapping-after-the-pass bound. -/
theorem collision_pair_semantics_witness :
    (0.1 : ℚ) < pairDistSq clashA clashB ∧
    ((Cosmic.collidePair true demoSqrt clashRnd clashA clashB true).2.1.x
        - (Cosmic.collidePair true demoSqrt clashRnd clashA clashB true).1.x) ^ 2
      + ((Cosmic.collidePair true demoSqrt clashRnd clashA clashB true).2.1.y
        - (Cosmic.collidePair true demoSqrt clashRnd clashA clashB true).1.y) ^ 2
      < pairMinDist clashA clashB * pairMinDist clashA clashB := by
  refine ⟨by norm_num [pairDistSq, clashA, clashB, Particle.new], ?_⟩
  exact (collision_pair_semantics true demoSqrt clashRnd clashA clashB true
    (by norm_num [clashA, Particle.new])
    (by norm_num [clashB, Particle.new])
    (by norm_num [pairDistSq, pairMinDist, clashA, clashB, Particle.new])
    (by norm_num [pairDistSq, clashA, clashB, Particle.new])
    (by norm_num [SqOkAt, pairDistSq, demoSqrt, clashA, clashB,
      Particle.new])).2.1

/-
C5 — click burst.
-/

lemma init_x (p : Particle) (x y : ℚ) (color : String) (type : PType)
    (intensity mvx mvy : ℚ) (r : InitRnd) :
    (Cosmic.init p x y color type intensity mvx mvy r).x = x := rfl

lemma init_y (p : Particle) (x y : ℚ) (color : String) (type : PType)
    (intensity mvx mvy : ℚ) (r : InitRnd) :
    (Cosmic.init p x y color type intensity mvx mvy r).y = y := rfl

/-- `getParticle` initialises the particle at exactly the requested
position, whether it was pooled or freshly constructed. -/
lemma getParticle_pos (x y : ℚ) (color : String) (type : PType)
    (intensity mvx mvy : ℚ) (r : InitRnd) (pool : List Particle) (nid : ℕ) :
    (Cosmic.getParticle x y color type intensity mvx mvy r pool nid).1.x = x ∧
    (Cosmic.getParticle x y color type intensity mvx mvy r pool nid).1.y = y := by
  rw [Cosmic.getParticle]
  cases pool.getLast? <;> exact ⟨rfl, rfl⟩

/-- Folding a step that pushes exactly one particle grows the store by the
list length. -/
lemma foldl_push_length {α : Type} (f : Cosmic.SimState → α → Cosmic.SimState)
    (hf : ∀ s a, (f s a).active.length = s.active.length + 1) :
    ∀ (L : List α) (s : Cosmic.SimState),
      (L.foldl f s).active.length = s.active.length + L.length := by
  intro L
  induction L with
  | nil => intro s; simp
  | cons a L ih =>
    intro s
    rw [List.foldl_cons, ih, hf]
    simp only [List.length_cons]
    omega

/-- Folding a step that pushes one particle satisfying `P` appends a block
of particles all satisfying `P`. -/
lemma foldl_push_spec {α : Type} (f : Cosmic.SimState → α → Cosmic.SimState)
    (P : Particle → Prop)
    (hf : ∀ s a, ∃ q, (f s a).active = s.active ++ [q] ∧ P q) :
    ∀ (L : List α) (s : Cosmic.SimState),
      ∃ news : List Particle,
        (L.foldl f s).active = s.active ++ news ∧ ∀ p ∈ news, P p := by
  intro L
  induction L with
  | nil => intro s; exact ⟨[], by simp, by simp⟩
  | cons a L ih =>
    intro s
    obtain ⟨q, hq, hPq⟩ := hf s a
    obtain ⟨news, h1, h2⟩ := ih (f s a)
    refine ⟨q :: news, ?_, ?_⟩
    · rw [List.foldl_cons, h1, hq, List.append_assoc]
      rfl
    · intro p hp
      rcases List.mem_cons.mp hp with rfl | hp
      · exact hPq
      · exact h2 p hp

/-- Each iteration of `spawnExplosion` pushes exactly one particle, so the
store grows by `min(count, maxParticles - active.length)`. -/
lemma spawnExplosion_length (x y : ℚ) (count : ℕ) (intensity : ℚ)
    (rs : ℕ → SpawnRnd) (st : Cosmic.SimState) :
    (Cosmic.spawnExplosion x y count intensity rs st).active.length
      = st.active.length
        + (min (count : ℤ)
            ((Cosmic.maxParticles : ℤ) - (st.active.length : ℤ))).toNat := by
  rw [Cosmic.spawnExplosion]
  rw [foldl_push_length _ (fun s i => by simp) _ st]
  rw [List.length_range]

/-- After `spawnExplosion`, the store is the old store plus new particles,
each placed strictly within the spawn radius of `(x, y)` (for in-range
random draws). -/
lemma spawnExplosion_spec (x y : ℚ) (count : ℕ) (intensity : ℚ)
    (rs : ℕ → SpawnRnd) (st : Cosmic.SimState)
    (hrs : ∀ i, 0 ≤ (rs i).radiusR ∧ (rs i).radiusR < 1
      ∧ (rs i).cosA ^ 2 + (rs i).sinA ^ 2 = 1) :
    ∃ news : List Particle,
      (Cosmic.spawnExplosion x y count intensity rs st).active
        = st.active ++ news ∧
      ∀ p ∈ news, (p.x - x) ^ 2 + (p.y - y) ^ 2 < Cosmic.spawnRadius ^ 2 := by
  rw [Cosmic.spawnExplosion]
  apply foldl_push_spec
  intro s i
  obtain ⟨hr0, hr1, hcs⟩ := hrs i
  refine ⟨_, rfl, ?_⟩
  obtain ⟨hx, hy⟩ := getParticle_pos
    (x + (rs i).cosA * (2 + (rs i).radiusR * Cosmic.spawnRadius * 0.5))
    (y + (rs i).sinA * (2 + (rs i).radiusR * Cosmic.spawnRadius * 0.5))
    (Cosmic.randomColor (rs i).colorR) PType.cube
    (intensity + (rs i).intensityR * 0.3) s.mouse.vx s.mouse.vy (rs i).init
    s.pool s.nextId
  rw [hx, hy]
  have hrad : (0 : ℚ) < 2 + (rs i).radiusR * Cosmic.spawnRadius * 0.5
      ∧ 2 + (rs i).radiusR * Cosmic.spawnRadius * 0.5 < 12 := by
    norm_num [Cosmic.spawnRadius]
    constructor <;> nlinarith
  have hsum : ((rs i).cosA * (2 + (rs i).radiusR * Cosmic.spawnRadius * 0.5)) ^ 2
      + ((rs i).sinA * (2 + (rs i).radiusR * Cosmic.spawnRadius * 0.5)) ^ 2
      = (2 + (rs i).radiusR * Cosmic.spawnRadius * 0.5) ^ 2 := by
    linear_combination (2 + (rs i).radiusR * Cosmic.spawnRadius * 0.5) ^ 2 * hcs
  have hgoal : (x + (rs i).cosA * (2 + (rs i).radiusR * Cosmic.spawnRadius * 0.5)
        - x) ^ 2
      + (y + (rs i).sinA * (2 + (rs i).radiusR * Cosmic.spawnRadius * 0.5)
        - y) ^ 2
      = (2 + (rs i).radiusR * Cosmic.spawnRadius * 0.5) ^ 2 := by
    calc (x + (rs i).cosA * (2 + (rs i).radiusR * Cosmic.spawnRadius * 0.5)
            - x) ^ 2
          + (y + (rs i).sinA * (2 + (rs i).radiusR * Cosmic.spawnRadius * 0.5)
            - y) ^ 2
        = ((rs i).cosA * (2 + (rs i).radiusR * Cosmic.spawnRadius * 0.5)) ^ 2
          + ((rs i).sinA * (2 + (rs i).radiusR * Cosmic.spawnRadius * 0.5)) ^ 2 := by
          ring
      _ = (2 + (rs i).radiusR * Cosmic.spawnRadius * 0.5) ^ 2 := hsum
  rw [hgoal]
  have : Cosmic.spawnRadius ^ 2 = 400 := by norm_num [Cosmic.spawnRadius]
  rw [this]
  nlinarith [hrad.1, hrad.2]

/-- C5: a pointer-down at `(100, 100)` followed immediately by pointer-up
with no movement spawns exactly `clickSpawnCount` (= 4, within the spec's
4–8 band) particles, all placed strictly within the configured
`spawnRadius` of `(100, 100)` — provided the store has room for the batch
and the random draws are in `[0, 1)` with `cos² + sin² = 1`. -/
theorem click_burst_scenario (st : Cosmic.SimState) (rs : ℕ → SpawnRnd)
    (hroom : st.active.length + Cosmic.clickSpawnCount ≤ Cosmic.maxParticles)
    (hrs : ∀ i, 0 ≤ (rs i).radiusR ∧ (rs i).radiusR < 1
      ∧ (rs i).cosA ^ 2 + (rs i).sinA ^ 2 = 1) :
    (Cosmic.onMouseUp (Cosmic.onMouseDown 100 100 rs st)).active.length
      = st.active.length + Cosmic.clickSpawnCount ∧
    ∀ p ∈ (Cosmic.onMouseUp (Cosmic.onMouseDown 100 100 rs st)).active.drop
        st.active.length,
      (p.x - 100) ^ 2 + (p.y - 100) ^ 2 < Cosmic.spawnRadius ^ 2 := by
  have hmu : ∀ s : Cosmic.SimState, (Cosmic.onMouseUp s).active = s.active :=
    fun s => rfl
  simp only [Cosmic.onMouseDown, hmu]
  rw [Cosmic.maxParticles, Cosmic.clickSpawnCount] at hroom
  constructor
  · rw [spawnExplosion_length]
    have hmin : min ((Cosmic.clickSpawnCount : ℤ))
        ((Cosmic.maxParticles : ℤ) - (st.active.length : ℤ))
        = Cosmic.clickSpawnCount := by
      rw [Cosmic.maxParticles, Cosmic.clickSpawnCount]
      omega
    rw [hmin]
    rfl
  · obtain ⟨news, h1, h2⟩ := spawnExplosion_spec 100 100
      Cosmic.clickSpawnCount 0.5 rs _ hrs
    rw [h1]
    intro p hp
    apply h2
    have : st.active.length
        = (({ st with mouse := { st.mouse with
            isDown := true, x := 100, y := 100, prevX := 100, prevY := 100,
            lastSpawnX := 100, lastSpawnY := 100 } } :
          Cosmic.SimState)).active.length := rfl
    rw [this, List.drop_left] at hp
    exact hp

/-- Fixed random draws for the click-burst witness. -/
def burstRs : ℕ → SpawnRnd := fun _ =>
  { cosA := 1, sinA := 0, radiusR := 1 / 2, colorR := 0, intensityR := 0,
    init := { sizeVariant := 0, sizeR := 0, decayR := 0, rotR := 0,
              rotSpeedR := 0, cosA := 1, sinA := 0, speedR := 0 } }

/-- Witness for C5: the scenario applied to the freshly initialised
module state. -/
theorem click_burst_scenario_witness :
    Cosmic.initState.active.length + Cosmic.clickSpawnCount
      ≤ Cosmic.maxParticles ∧
    (Cosmic.onMouseUp (Cosmic.onMouseDown 100 100 burstRs
        Cosmic.initState)).active.length
      = Cosmic.initState.active.length + Cosmic.clickSpawnCount ∧
    ∀ p ∈ (Cosmic.onMouseUp (Cosmic.onMouseDown 100 100 burstRs
        Cosmic.initState)).active.drop Cosmic.initState.active.length,
      (p.x - 100) ^ 2 + (p.y - 100) ^ 2 < Cosmic.spawnRadius ^ 2 := by
  have hroom : Cosmic.initState.active.length + Cosmic.clickSpawnCount
      ≤ Cosmic.maxParticles := by
    norm_num [Cosmic.initState, Cosmic.clickSpawnCount, Cosmic.maxParticles]
  have hrs : ∀ i, 0 ≤ (burstRs i).radiusR ∧ (burstRs i).radiusR < 1
      ∧ (burstRs i).cosA ^ 2 + (burstRs i).sinA ^ 2 = 1 := by
    intro i
    norm_num [burstRs]
  exact ⟨hroom,
    click_burst_scenario Cosmic.initState burstRs hroom hrs⟩

/-
C1 / C2 — bounded population and pool conservation.
-/

/-- The multiset of object identities held by a particle array. -/
def idsM (l : List Particle) : Multiset ℕ := (l.map Particle.id : Multiset ℕ)

@[simp] lemma idsM_nil : idsM [] = 0 := rfl

@[simp] lemma idsM_append (l l2 : List Particle) :
    idsM (l ++ l2) = idsM l + idsM l2 := by
  simp [idsM]

@[simp] lemma idsM_cons (p : Particle) (l : List Particle) :
    idsM (p :: l) = p.id ::ₘ idsM l := rfl

lemma idsM_card (l : List Particle) : Multiset.card (idsM l) = l.length := by
  simp [idsM]

/-- The pool-conservation invariant of C2 on the triple
`(active, pool, nextId)`: the two arrays together hold exactly one object
per allocated identity `0, …, nextId − 1`.  This packages the three facts
of the claim at once — the identities are pairwise distinct (so no object
is referenced by both arrays), every identity was allocated, and
`active.length + pool.length = totalEverAllocated` (nothing is ever
permanently discarded while running). -/
def PoolInv (active pool : List Particle) (nid : ℕ) : Prop :=
  idsM active + idsM pool = Multiset.range nid

lemma init_id (p : Particle) (x y : ℚ) (color : String) (type : PType)
    (intensity mvx mvy : ℚ) (r : InitRnd) :
    (Cosmic.init p x y color type intensity mvx mvy r).id = p.id := rfl

/-- `getParticle` either constructs a fresh object carrying the next
identity, or re-initialises the last pooled object in place. -/
lemma getParticle_cases (x y : ℚ) (color : String) (type : PType)
    (intensity mvx mvy : ℚ) (r : InitRnd) (pool : List Particle) (nid : ℕ) :
    (pool = [] ∧
      Cosmic.getParticle x y color type intensity mvx mvy r pool nid
        = (Cosmic.init (Particle.new nid) x y color type intensity mvx mvy r,
           pool, nid + 1))
    ∨ (∃ (pool0 : List Particle) (q : Particle), pool = pool0 ++ [q] ∧
      Cosmic.getParticle x y color type intensity mvx mvy r pool nid
        = (Cosmic.init q x y color type intensity mvx mvy r, pool0, nid)) := by
  rcases List.eq_nil_or_concat pool with h | ⟨pool0, q, h⟩
  · left
    subst h
    exact ⟨rfl, rfl⟩
  · right
    rw [List.concat_eq_append] at h
    refine ⟨pool0, q, h, ?_⟩
    subst h
    rw [Cosmic.getParticle, List.getLast?_concat, List.dropLast_concat]

/-- Spawning one particle (as `spawnExplosion` / `trySpawnOnDrag` do)
preserves the pool-conservation invariant. -/
lemma poolInv_spawn (active pool : List Particle) (nid : ℕ)
    (h : PoolInv active pool nid) (x y : ℚ) (color : String) (type : PType)
    (intensity mvx mvy : ℚ) (r : InitRnd) :
    PoolInv
      (active ++ [(Cosmic.getParticle x y color type intensity mvx mvy r
        pool nid).1])
      (Cosmic.getParticle x y color type intensity mvx mvy r pool nid).2.1
      (Cosmic.getParticle x y color type intensity mvx mvy r pool nid).2.2 := by
  unfold PoolInv at h ⊢
  rcases getParticle_cases x y color type intensity mvx mvy r pool nid with
    ⟨hp, heq⟩ | ⟨pool0, q, hp, heq⟩
  · subst hp
    rw [heq]
    simp only [idsM_append, idsM_nil, idsM_cons, init_id, add_zero,
      Multiset.cons_zero] at h ⊢
    have hfresh : (Particle.new nid).id = nid := rfl
    rw [hfresh, Multiset.range_succ, ← h, ← Multiset.singleton_add]
    exact add_comm _ _
  · subst hp
    rw [heq]
    simp only [idsM_append, idsM_cons, idsM_nil, init_id, add_zero,
      Multiset.cons_zero] at h ⊢
    rw [← h]
    abel

/-- Folding preserves any invariant the step preserves. -/
lemma foldl_preserve {α : Type} (f : Cosmic.SimState → α → Cosmic.SimState)
    (P : Cosmic.SimState → Prop) (hf : ∀ s a, P s → P (f s a)) :
    ∀ (L : List α) (s : Cosmic.SimState), P s → P (L.foldl f s) := by
  intro L
  induction L with
  | nil => exact fun s h => h
  | cons a L ih => exact fun s h => ih (f s a) (hf s a h)

lemma lifeStep_id (p : Particle) : (Cosmic.lifeStep p).id = p.id := rfl

lemma fadeStep_id (p : Particle) : (Cosmic.fadeStep p).id = p.id := by
  simp only [Cosmic.fadeStep]; split_ifs <;> rfl

lemma gravityStep_id (p : Particle) : (Cosmic.gravityStep p).id = p.id := rfl
lemma frictionStep_id (p : Particle) : (Cosmic.frictionStep p).id = p.id := rfl

lemma capStep_id (sq : ℚ → ℚ) (p : Particle) :
    (Cosmic.capStep sq p).id = p.id := by
  simp only [Cosmic.capStep]; split_ifs <;> rfl

lemma fieldStep_id (m : Mouse) (sq : ℚ → ℚ) (rnd : ℚ) (p : Particle) :
    (Cosmic.fieldStep m sq rnd p).id = p.id := by
  simp only [Cosmic.fieldStep]; split_ifs <;> rfl

lemma integrateStep_id (p : Particle) : (Cosmic.integrateStep p).id = p.id := rfl
lemma rotationStep_id (p : Particle) : (Cosmic.rotationStep p).id = p.id := rfl

lemma wallLeftStep_id (p : Particle) : (Cosmic.wallLeftStep p).id = p.id := by
  simp only [Cosmic.wallLeftStep]; split_ifs <;> rfl
lemma wallRightStep_id (w : ℚ) (p : Particle) :
    (Cosmic.wallRightStep w p).id = p.id := by
  simp only [Cosmic.wallRightStep]; split_ifs <;> rfl
lemma ceilingStep_id (p : Particle) : (Cosmic.ceilingStep p).id = p.id := by
  simp only [Cosmic.ceilingStep]; split_ifs <;> rfl
lemma floorStep_id (h : ℚ) (p : Particle) :
    (Cosmic.floorStep h p).id = p.id := by
  simp only [Cosmic.floorStep]; split_ifs <;> rfl

lemma boundaryStep_id (w h : ℚ) (p : Particle) :
    (Cosmic.boundaryStep w h p).id = p.id := by
  rw [Cosmic.boundaryStep, floorStep_id, ceilingStep_id, wallRightStep_id,
    wallLeftStep_id]

/-- `update` mutates the object in place: its identity is untouched. -/
lemma update_id (m : Mouse) (w h : ℚ) (sq : ℚ → ℚ) (rnd : ℚ)
    (p : Particle) : (Cosmic.update m w h sq rnd p).id = p.id := by
  simp only [Cosmic.update]
  by_cases hl : (Cosmic.lifeStep p).life ≤ 0
  · rw [if_pos hl]
    rfl
  · rw [if_neg hl]
    rw [rotationStep_id, boundaryStep_id, integrateStep_id, fieldStep_id,
      capStep_id, frictionStep_id, gravityStep_id, fadeStep_id, lifeStep_id]

lemma list_set_get? {α : Type} :
    ∀ (l : List α) (i : ℕ) (x : α), l.get? i = some x → l.set i x = l
  | [], _, _, h => by simp at h
  | a :: l, 0, x, h => by
    simp only [List.get?] at h
    cases h
    rfl
  | a :: l, i + 1, x, h => by
    simp only [List.get?] at h
    simp only [List.set]
    rw [list_set_get? l i x h]

lemma list_map_set {α β : Type} (f : α → β) :
    ∀ (l : List α) (i : ℕ) (v : α),
      (l.set i v).map f = (l.map f).set i (f v)
  | [], _, _ => rfl
  | a :: l, 0, v => rfl
  | a :: l, i + 1, v => by
    simp only [List.set, List.map]
    rw [list_map_set f l i v]

/-- Replacing two entries by particles with the same identities leaves the
identity multiset unchanged. -/
lemma idsM_set2 (l : List Particle) (i j : ℕ) (a b va vb : Particle)
    (hga : l.get? i = some a) (hgb : l.get? j = some b)
    (hia : va.id = a.id) (hib : vb.id = b.id) :
    idsM ((l.set i va).set j vb) = idsM l := by
  unfold idsM
  congr 1
  rw [list_map_set, list_map_set, hia, hib]
  have h1 : (l.map Particle.id).set i a.id = l.map Particle.id := by
    apply list_set_get?
    rw [List.get?_map, hga]
    rfl
  rw [h1]
  apply list_set_get?
  rw [List.get?_map, hgb]
  rfl

/-- The update-and-retire loop conserves the identity multiset: every
particle ends up in exactly one of the survivor list and the retired
block. -/
lemma updatePass_ids (upd : ℕ → Particle → Particle)
    (hid : ∀ k p, (upd k p).id = p.id) :
    ∀ (k : ℕ) (l : List Particle),
      idsM (Cosmic.updatePass upd k l).1 + idsM (Cosmic.updatePass upd k l).2
        = idsM l := by
  intro k l
  induction l generalizing k with
  | nil => rfl
  | cons p rest ih =>
    simp only [Cosmic.updatePass]
    split_ifs with h
    · simp only [idsM_cons, hid, ← Multiset.singleton_add]
      rw [← ih (k + 1)]
      abel
    · simp only [idsM_append, idsM_cons, idsM_nil, hid, add_zero,
        Multiset.cons_zero, ← Multiset.singleton_add]
      rw [← ih (k + 1)]
      abel

/-- The update loop never grows the active array. -/
lemma updatePass_length_le (upd : ℕ → Particle → Particle) :
    ∀ (k : ℕ) (l : List Particle),
      (Cosmic.updatePass upd k l).1.length ≤ l.length := by
  intro k l
  induction l generalizing k with
  | nil => simp [Cosmic.updatePass]
  | cons p rest ih =>
    simp only [Cosmic.updatePass]
    split_ifs with h
    · simpa using ih (k + 1)
    · exact le_trans (ih (k + 1)) (by simp)

/-- The state-level conservation invariant. -/
def Inv (s : Cosmic.SimState) : Prop := PoolInv s.active s.pool s.nextId

lemma inv_spawnExplosion (x y : ℚ) (count : ℕ) (intensity : ℚ)
    (rs : ℕ → SpawnRnd) (st : Cosmic.SimState) (h : Inv st) :
    Inv (Cosmic.spawnExplosion x y count intensity rs st) := by
  rw [Cosmic.spawnExplosion]
  apply foldl_preserve _ Inv _ _ _ h
  intro s i hs
  exact poolInv_spawn s.active s.pool s.nextId hs _ _ _ _ _ _ _ _

/-- `Inv` only looks at `active`, `pool` and `nextId`, so changing the
mouse state preserves it. -/
lemma inv_mouseUpdate (s : Cosmic.SimState) (m : Mouse) :
    Inv { s with mouse := m } ↔ Inv s := Iff.rfl

lemma inv_trySpawnOnDrag (sq : ℚ → ℚ) (dr : ℕ → DragRnd)
    (st : Cosmic.SimState) (h : Inv st) :
    Inv (Cosmic.trySpawnOnDrag sq dr st) := by
  simp only [Cosmic.trySpawnOnDrag]
  split_ifs with h1 h2
  · exact h
  · exact h
  · rw [inv_mouseUpdate]
    apply foldl_preserve _ Inv _ _ st h
    intro s i hs
    dsimp only
    split_ifs
    · exact poolInv_spawn s.active s.pool s.nextId hs _ _ _ _ _ _ _ _
    · exact hs

lemma inv_processPending (expl : ℕ → ℕ → SpawnRnd) :
    ∀ (n : ℕ) (st : Cosmic.SimState), Inv st →
      Inv (Cosmic.processPending expl n st) := by
  intro n
  induction n with
  | zero => exact fun st h => h
  | succ n ih =>
    intro st h
    rw [Cosmic.processPending]
    cases hp : st.pending with
    | nil => exact h
    | cons req rest =>
      split_ifs with hl
      · exact ih _ (inv_spawnExplosion _ _ _ _ _ { st with pending := rest } h)
      · exact h

/-- The collision response only rewrites positions and velocities: the two
objects keep their identities. -/
lemma collidePair_id (isDown : Bool) (sq : ℚ → ℚ) (pr : PairRnd)
    (a b : Particle) (room : Bool) :
    (Cosmic.collidePair isDown sq pr a b room).1.id = a.id
    ∧ (Cosmic.collidePair isDown sq pr a b room).2.1.id = b.id := by
  simp only [Cosmic.collidePair]
  split_ifs <;> exact ⟨rfl, rfl⟩

lemma inv_collideAt (sq : ℚ → ℚ) (rnd : ℕ × ℕ → PairRnd)
    (st : Cosmic.SimState) (ij : ℕ × ℕ) (h : Inv st) :
    Inv (Cosmic.collideAt sq rnd st ij) := by
  simp only [Cosmic.collideAt]
  cases hga : st.active.get? ij.1 with
  | none => exact h
  | some a =>
    cases hgb : st.active.get? ij.2 with
    | none => exact h
    | some b =>
      dsimp only
      split_ifs with hg
      · exact h
      · have hid := collidePair_id st.mouse.isDown sq (rnd ij) a b
          (decide (st.active.length + st.pending.length
            < Cosmic.maxParticles))
        cases hr : (Cosmic.collidePair st.mouse.isDown sq (rnd ij) a b
            (decide (st.active.length + st.pending.length
              < Cosmic.maxParticles))).2.2 with
        | some req =>
          unfold Inv PoolInv at h ⊢
          dsimp only
          rw [idsM_set2 st.active ij.1 ij.2 a b _ _ hga hgb hid.1 hid.2]
          exact h
        | none =>
          unfold Inv PoolInv at h ⊢
          dsimp only
          rw [idsM_set2 st.active ij.1 ij.2 a b _ _ hga hgb hid.1 hid.2]
          exact h

lemma inv_handleCollisions (sq : ℚ → ℚ) (rnd : ℕ × ℕ → PairRnd)
    (st : Cosmic.SimState) (h : Inv st) :
    Inv (Cosmic.handleCollisions sq rnd st) := by
  rw [Cosmic.handleCollisions]
  exact foldl_preserve _ Inv (fun s ij hs => inv_collideAt sq rnd s ij hs)
    (Cosmic.pairIndices st.active.length) st h

lemma inv_frameVel (s : Cosmic.SimState) (h : Inv s) :
    Inv (Cosmic.frameVel s) := h

lemma inv_framePendingCap (s : Cosmic.SimState) (h : Inv s) :
    Inv (Cosmic.framePendingCap s) := by
  rw [Cosmic.framePendingCap]
  split_ifs
  · exact h
  · exact h

lemma inv_framePrev (s : Cosmic.SimState) (h : Inv s) :
    Inv (Cosmic.framePrev s) := h

lemma inv_frameCollide (sq : ℚ → ℚ) (fr : Cosmic.FrameRnd)
    (st : Cosmic.SimState) (h : Inv st) :
    Inv (Cosmic.frameCollide sq fr st) := by
  rw [Cosmic.frameCollide]
  split_ifs
  · exact inv_handleCollisions sq fr.pair st h
  · exact h

lemma inv_frameUpdate (w h : ℚ) (sq : ℚ → ℚ) (fr : Cosmic.FrameRnd)
    (st : Cosmic.SimState) (hI : Inv st) :
    Inv (Cosmic.frameUpdate w h sq fr st) := by
  have hids := updatePass_ids
    (fun k p => Cosmic.update st.mouse w h sq (fr.upd k) p)
    (fun k p => update_id st.mouse w h sq (fr.upd k) p) 0 st.active
  unfold Inv PoolInv at hI
  show idsM (Cosmic.updatePass
      (fun k p => Cosmic.update st.mouse w h sq (fr.upd k) p) 0 st.active).1
    + idsM (st.pool
      ++ (Cosmic.updatePass
        (fun k p => Cosmic.update st.mouse w h sq (fr.upd k) p) 0
        st.active).2)
    = Multiset.range st.nextId
  rw [idsM_append, ← hI, ← hids]
  abel

lemma inv_stepFrame (w h : ℚ) (sq : ℚ → ℚ) (fr : Cosmic.FrameRnd)
    (st : Cosmic.SimState) (hI : Inv st) :
    Inv (Cosmic.stepFrame w h sq fr st) := by
  rw [Cosmic.stepFrame]
  split_ifs with hr
  · exact hI
  · exact inv_frameUpdate w h sq fr _
      (inv_frameCollide sq fr _
        (inv_framePrev _
          (inv_framePendingCap _
            (inv_processPending fr.expl 3 _
              (inv_trySpawnOnDrag sq fr.drag _
                (inv_frameVel st hI))))))

/-- Every listener and the frame callback preserve the conservation
invariant. -/
lemma inv_stepEv (e : Cosmic.Ev) (s : Cosmic.SimState) (h : Inv s) :
    Inv (Cosmic.stepEv e s) := by
  cases e with
  | mousedown cx cy rs =>
    exact inv_spawnExplosion cx cy Cosmic.clickSpawnCount 0.5 rs
      { s with mouse := { s.mouse with
          isDown := true, x := cx, y := cy, prevX := cx, prevY := cy,
          lastSpawnX := cx, lastSpawnY := cy } } h
  | mouseup => exact h
  | mousemove cx cy b => exact h
  | mouseleave => exact h
  | blur => exact h
  | visibility hidden =>
    show Inv (Cosmic.onVisibilityChange hidden s)
    rw [Cosmic.onVisibilityChange]
    split_ifs
    · exact h
    · exact h
    · exact h
  | frame w hh sq fr => exact inv_stepFrame w hh sq fr s h

lemma inv_initState : Inv Cosmic.initState := by
  simp [Inv, PoolInv, Cosmic.initState]

/-- The Trace variant's eviction loop moves particles from `active` to
`pool` one at a time, preserving the conservation invariant. -/
lemma enforceLimit_poolInv (maxP : ℕ) :
    ∀ (a po : List Particle) (nid : ℕ), PoolInv a po nid →
      PoolInv (Trace.enforceLimit maxP a po).1
        (Trace.enforceLimit maxP a po).2 nid := by
  intro a
  induction a with
  | nil => exact fun po nid h => h
  | cons p rest ih =>
    intro po nid h
    rw [Trace.enforceLimit]
    split_ifs with hl
    · apply ih
      unfold PoolInv at h ⊢
      simp only [idsM_append, idsM_cons, idsM_nil, Multiset.cons_zero,
        add_zero] at h ⊢
      have hid : ({ p with active := false } : Particle).id = p.id := rfl
      rw [hid, ← h, ← Multiset.singleton_add]
      abel
    · exact h

/-- The eviction loop always leaves at most `maxP` active particles. -/
lemma enforceLimit_length (maxP : ℕ) :
    ∀ (a po : List Particle),
      (Trace.enforceLimit maxP a po).1.length ≤ maxP := by
  intro a
  induction a with
  | nil => intro po; simp [Trace.enforceLimit]
  | cons p rest ih =>
    intro po
    rw [Trace.enforceLimit]
    split_ifs with hl
    · exact ih _
    · show (p :: rest).length ≤ maxP
      simp only [List.length_cons] at hl ⊢
      omega

/-- The population bound of C1 on the module state. -/
def Cap (s : Cosmic.SimState) : Prop :=
  s.active.length ≤ Cosmic.maxParticles

lemma cap_initState : Cap Cosmic.initState := by
  simp [Cap, Cosmic.initState]

lemma cap_spawnExplosion (x y : ℚ) (count : ℕ) (intensity : ℚ)
    (rs : ℕ → SpawnRnd) (st : Cosmic.SimState) (h : Cap st) :
    Cap (Cosmic.spawnExplosion x y count intensity rs st) := by
  unfold Cap at h ⊢
  rw [spawnExplosion_length]
  rcases le_total (count : ℤ)
      ((Cosmic.maxParticles : ℤ) - (st.active.length : ℤ)) with hm | hm
  · rw [min_eq_left hm]
    omega
  · rw [min_eq_right hm]
    omega

lemma cap_mouseUpdate (s : Cosmic.SimState) (m : Mouse) :
    Cap { s with mouse := m } ↔ Cap s := Iff.rfl

lemma cap_trySpawnOnDrag (sq : ℚ → ℚ) (dr : ℕ → DragRnd)
    (st : Cosmic.SimState) (h : Cap st) :
    Cap (Cosmic.trySpawnOnDrag sq dr st) := by
  simp only [Cosmic.trySpawnOnDrag]
  split_ifs with h1 h2
  · exact h
  · exact h
  · rw [cap_mouseUpdate]
    apply foldl_preserve _ Cap _ _ st h
    intro s i hs
    dsimp only
    split_ifs with hlen
    · unfold Cap at hs ⊢
      dsimp only
      rw [List.length_append]
      simp only [List.length_cons, List.length_nil]
      omega
    · exact hs

lemma cap_processPending (expl : ℕ → ℕ → SpawnRnd) :
    ∀ (n : ℕ) (st : Cosmic.SimState), Cap st →
      Cap (Cosmic.processPending expl n st) := by
  intro n
  induction n with
  | zero => exact fun st h => h
  | succ n ih =>
    intro st h
    rw [Cosmic.processPending]
    cases hp : st.pending with
    | nil => exact h
    | cons req rest =>
      split_ifs with hl
      · exact ih _ (cap_spawnExplosion _ _ _ _ _ { st with pending := rest } h)
      · exact h

lemma cap_collideAt (sq : ℚ → ℚ) (rnd : ℕ × ℕ → PairRnd)
    (st : Cosmic.SimState) (ij : ℕ × ℕ) (h : Cap st) :
    Cap (Cosmic.collideAt sq rnd st ij) := by
  simp only [Cosmic.collideAt]
  cases hga : st.active.get? ij.1 with
  | none => exact h
  | some a =>
    cases hgb : st.active.get? ij.2 with
    | none => exact h
    | some b =>
      dsimp only
      split_ifs with hg
      · exact h
      · cases hr : (Cosmic.collidePair st.mouse.isDown sq (rnd ij) a b
            (decide (st.active.length + st.pending.length
              < Cosmic.maxParticles))).2.2 with
        | some req =>
          unfold Cap at h ⊢
          dsimp only
          simpa using h
        | none =>
          unfold Cap at h ⊢
          dsimp only
          simpa using h

lemma cap_handleCollisions (sq : ℚ → ℚ) (rnd : ℕ × ℕ → PairRnd)
    (st : Cosmic.SimState) (h : Cap st) :
    Cap (Cosmic.handleCollisions sq rnd st) := by
  rw [Cosmic.handleCollisions]
  exact foldl_preserve _ Cap (fun s ij hs => cap_collideAt sq rnd s ij hs)
    (Cosmic.pairIndices st.active.length) st h

lemma cap_frameVel (s : Cosmic.SimState) (h : Cap s) :
    Cap (Cosmic.frameVel s) := h

lemma cap_framePendingCap (s : Cosmic.SimState) (h : Cap s) :
    Cap (Cosmic.framePendingCap s) := by
  rw [Cosmic.framePendingCap]
  split_ifs
  · exact h
  · exact h

lemma cap_framePrev (s : Cosmic.SimState) (h : Cap s) :
    Cap (Cosmic.framePrev s) := h

lemma cap_frameCollide (sq : ℚ → ℚ) (fr : Cosmic.FrameRnd)
    (st : Cosmic.SimState) (h : Cap st) :
    Cap (Cosmic.frameCollide sq fr st) := by
  rw [Cosmic.frameCollide]
  split_ifs
  · exact cap_handleCollisions sq fr.pair st h
  · exact h

lemma cap_frameUpdate (w h : ℚ) (sq : ℚ → ℚ) (fr : Cosmic.FrameRnd)
    (st : Cosmic.SimState) (hC : Cap st) :
    Cap (Cosmic.frameUpdate w h sq fr st) := by
  show (Cosmic.updatePass
      (fun k p => Cosmic.update st.mouse w h sq (fr.upd k) p) 0
      st.active).1.length ≤ Cosmic.maxParticles
  exact le_trans (updatePass_length_le _ 0 st.active) hC

lemma cap_stepFrame (w h : ℚ) (sq : ℚ → ℚ) (fr : Cosmic.FrameRnd)
    (st : Cosmic.SimState) (hC : Cap st) :
    Cap (Cosmic.stepFrame w h sq fr st) := by
  rw [Cosmic.stepFrame]
  split_ifs with hr
  · exact hC
  · exact cap_frameUpdate w h sq fr _
      (cap_frameCollide sq fr _
        (cap_framePrev _
          (cap_framePendingCap _
            (cap_processPending fr.expl 3 _
              (cap_trySpawnOnDrag sq fr.drag _
                (cap_frameVel st hC))))))

/-- Every listener and the frame callback preserve the population bound. -/
lemma cap_stepEv (e : Cosmic.Ev) (s : Cosmic.SimState) (h : Cap s) :
    Cap (Cosmic.stepEv e s) := by
  cases e with
  | mousedown cx cy rs =>
    exact cap_spawnExplosion cx cy Cosmic.clickSpawnCount 0.5 rs
      { s with mouse := { s.mouse with
          isDown := true, x := cx, y := cy, prevX := cx, prevY := cy,
          lastSpawnX := cx, lastSpawnY := cy } } h
  | mouseup => exact h
  | mousemove cx cy b => exact h
  | mouseleave => exact h
  | blur => exact h
  | visibility hidden =>
    show Cap (Cosmic.onVisibilityChange hidden s)
    rw [Cosmic.onVisibilityChange]
    split_ifs
    · exact h
    · exact h
    · exact h
  | frame w hh sq fr => exact cap_stepFrame w hh sq fr s h

/-- C1: the population bound.  The module starts within the cap; every
external stimulus — each pointer listener and the animation frame with its
three spawn paths (click burst via `spawnExplosion`'s
`min(count, maxParticles - active.length)`, drag trail via the per-step
`active.length < maxParticles` guard, collision explosions via the gated
`processPending` drain) — preserves `active.length ≤ maxParticles`; hence
after any event sequence from the initial state, however bursty, the bound
holds (and every handler is a total function, so none can throw).  In the
alternate (Trace) policy the eviction loop unconditionally leaves at most
`maxParticles` active particles. -/
theorem bounded_population :
    Cosmic.initState.active.length ≤ Cosmic.maxParticles
    ∧ (∀ (e : Cosmic.Ev) (s : Cosmic.SimState),
        s.active.length ≤ Cosmic.maxParticles →
        (Cosmic.stepEv e s).active.length ≤ Cosmic.maxParticles)
    ∧ (∀ evs : List Cosmic.Ev,
        (evs.foldl (fun s e => Cosmic.stepEv e s)
          Cosmic.initState).active.length ≤ Cosmic.maxParticles)
    ∧ (∀ (a po : List Particle),
        (Trace.enforceLimit Trace.maxParticles a po).1.length
          ≤ Trace.maxParticles) := by
  refine ⟨cap_initState, fun e s hs => cap_stepEv e s hs, ?_, ?_⟩
  · intro evs
    exact foldl_preserve (fun s e => Cosmic.stepEv e s) Cap
      (fun s e hs => cap_stepEv e s hs) evs Cosmic.initState cap_initState
  · intro a po
    exact enforceLimit_length Trace.maxParticles a po

/-- C1 witness: the per-event preservation applied at a concrete event and
state. -/
theorem bounded_population_witness :
    Cosmic.initState.active.length ≤ Cosmic.maxParticles
    ∧ (Cosmic.stepEv Cosmic.Ev.mouseup Cosmic.initState).active.length
        ≤ Cosmic.maxParticles :=
  ⟨by simp [Cosmic.initState],
   bounded_population.2.1 Cosmic.Ev.mouseup Cosmic.initState
     (by simp [Cosmic.initState])⟩

/-- C2: pool conservation.  The multiset of particle identities held by
`active` and `pool` together is exactly `{0, …, nextId − 1}` — an
invariant established at init and preserved by every listener and frame
(retirement moves a dead particle from `active` to `pool` exactly once,
and `getParticle` pops the pool before allocating).  Consequently the
identities are pairwise distinct, so no particle object is referenced by
both arrays at once, and `active.length + pool.length = nextId`, the
number of particles ever allocated (nothing is ever permanently
discarded, so the claimed `≥` inequality holds with equality).  The Trace
variant's eviction loop preserves the same invariant. -/
theorem pool_conservation :
    Inv Cosmic.initState
    ∧ (∀ (e : Cosmic.Ev) (s : Cosmic.SimState),
        Inv s → Inv (Cosmic.stepEv e s))
    ∧ (∀ evs : List Cosmic.Ev,
        Inv (evs.foldl (fun s e => Cosmic.stepEv e s) Cosmic.initState))
    ∧ (∀ s : Cosmic.SimState, Inv s →
        (idsM s.active + idsM s.pool).Nodup
        ∧ s.active.length + s.pool.length = s.nextId)
    ∧ (∀ (maxP : ℕ) (a po : List Particle) (nid : ℕ),
        PoolInv a po nid →
        PoolInv (Trace.enforceLimit maxP a po).1
          (Trace.enforceLimit maxP a po).2 nid) := by
  refine ⟨inv_initState, fun e s hs => inv_stepEv e s hs, ?_, ?_, ?_⟩
  · intro evs
    exact foldl_preserve (fun s e => Cosmic.stepEv e s) Inv
      (fun s e hs => inv_stepEv e s hs) evs Cosmic.initState inv_initState
  · intro s hs
    unfold Inv PoolInv at hs
    constructor
    · rw [hs]
      exact Multiset.nodup_range s.nextId
    · have hc := congrArg Multiset.card hs
      rwa [Multiset.card_add, idsM_card, idsM_card, Multiset.card_range]
        at hc
  · intro maxP a po nid hs
    exact enforceLimit_poolInv maxP a po nid hs

/-- C2 witness: the per-event preservation applied at a concrete event and
state. -/
theorem pool_conservation_witness :
    Inv Cosmic.initState
    ∧ Inv (Cosmic.stepEv Cosmic.Ev.mouseup Cosmic.initState) :=
  ⟨by simp [Inv, PoolInv, Cosmic.initState],
   pool_conservation.2.1 Cosmic.Ev.mouseup Cosmic.initState
     (by simp [Inv, PoolInv, Cosmic.initState])⟩

/-
C10 — the hexadecimal plumbing of `shadeColor`.
-/

lemma hexVal?_lt (c : Char) (d : ℕ) (h : Hex.hexVal? c = some d) : d < 16 := by
  unfold Hex.hexVal? at h
  split_ifs at h with h1 h2 h3
  all_goals first
    | (injection h with h4; omega)
    | exact Option.noConfusion h

lemma hexVal?_hexChar (d : ℕ) (h : d < 16) :
    Hex.hexVal? (Hex.hexChar d) = some d := by
  interval_cases d <;> decide

lemma parseHexStep_none (c : Char) : Hex.parseHexStep none c = none := rfl

lemma parseHexStep_some (a : ℕ) (c : Char) (d : ℕ)
    (h : Hex.hexVal? c = some d) :
    Hex.parseHexStep (some a) c = some (a * 16 + d) := by
  unfold Hex.parseHexStep
  rw [h]

lemma parseHexStep_bad (a : ℕ) (c : Char) (h : Hex.hexVal? c = none) :
    Hex.parseHexStep (some a) c = none := by
  unfold Hex.parseHexStep
  rw [h]

lemma foldl_parseHexStep_none :
    ∀ cs : List Char, cs.foldl Hex.parseHexStep none = none
  | [] => rfl
  | c :: cs => by
    rw [List.foldl_cons, parseHexStep_none, foldl_parseHexStep_none cs]

/-- `parseInt(·, 16)` from a non-zero accumulator: the digits already read
contribute a leading block of `16 ^ length` units. -/
lemma foldl_parseHexStep_shift :
    ∀ (cs : List Char) (a : ℕ),
      cs.foldl Hex.parseHexStep (some a)
        = (cs.foldl Hex.parseHexStep (some 0)).map
            (fun u => a * 16 ^ cs.length + u) := by
  intro cs
  induction cs with
  | nil =>
    intro a
    simp
  | cons c cs ih =>
    intro a
    rw [List.foldl_cons, List.foldl_cons]
    cases hv : Hex.hexVal? c with
    | none =>
      rw [parseHexStep_bad a c hv, parseHexStep_bad 0 c hv,
        foldl_parseHexStep_none cs]
      rfl
    | some d =>
      rw [parseHexStep_some a c d hv, parseHexStep_some 0 c d hv,
        ih (a * 16 + d), ih (0 * 16 + d)]
      cases hfold : cs.foldl Hex.parseHexStep (some 0) with
      | none => rfl
      | some u =>
        simp only [Option.map_some']
        congr 1
        simp only [List.length_cons]
        rw [pow_succ]
        ring

/-- `parseInt(n.toString(16), 16) = n`: the hex render/parse round trip. -/
lemma parseHex_toHexList (n : ℕ) :
    Hex.parseHex (Hex.toHexList n) = some n := by
  induction n using Nat.strong_induction_on with
  | _ n ih =>
    by_cases h : n < 16
    · rw [Hex.toHexList, dif_pos h, Hex.parseHex, List.foldl_cons,
        parseHexStep_some 0 _ n (hexVal?_hexChar n h), List.foldl_nil]
      norm_num
    · rw [Hex.toHexList, dif_neg h, Hex.parseHex, List.foldl_append]
      have ihd := ih (n / 16) (Nat.div_lt_self (by omega) (by omega))
      rw [Hex.parseHex] at ihd
      rw [ihd, List.foldl_cons, List.foldl_nil,
        parseHexStep_some _ _ _
          (hexVal?_hexChar (n % 16) (Nat.mod_lt n (by norm_num)))]
      congr 1
      omega

/-- `toString(16)` of a number with `k + 1` hex digits: the leading digit is
`n / 16 ^ k` and `k` digits follow. -/
lemma toHexList_decomp :
    ∀ (k n : ℕ), 16 ^ k ≤ n → n < 16 ^ (k + 1) →
      ∃ rest : List Char,
        Hex.toHexList n = Hex.hexChar (n / 16 ^ k) :: rest
        ∧ rest.length = k := by
  intro k
  induction k with
  | zero =>
    intro n h1 h2
    rw [pow_zero] at h1
    rw [pow_one] at h2
    refine ⟨[], ?_, rfl⟩
    rw [Hex.toHexList, dif_pos h2, pow_zero, Nat.div_one]
  | succ k ih =>
    intro n h1 h2
    have h16 : ¬ n < 16 := by
      have hp : (16 : ℕ) ≤ 16 ^ (k + 1) := by
        calc (16 : ℕ) = 16 ^ 1 := (pow_one 16).symm
        _ ≤ 16 ^ (k + 1) := Nat.pow_le_pow_right (by omega) (by omega)
      omega
    have hb1 : 16 ^ k ≤ n / 16 := by
      rw [Nat.le_div_iff_mul_le (by norm_num)]
      calc 16 ^ k * 16 = 16 ^ (k + 1) := by rw [pow_succ]
      _ ≤ n := h1
    have hb2 : n / 16 < 16 ^ (k + 1) := by
      rw [Nat.div_lt_iff_lt_mul (by norm_num)]
      calc n < 16 ^ (k + 1 + 1) := h2
      _ = 16 ^ (k + 1) * 16 := by rw [pow_succ]
    obtain ⟨rest, hrest, hlen⟩ := ih (n / 16) hb1 hb2
    refine ⟨rest ++ [Hex.hexChar (n % 16)], ?_, ?_⟩
    · rw [Hex.toHexList, dif_neg h16, hrest]
      rw [Nat.div_div_eq_div_mul]
      rw [show (16 : ℕ) * 16 ^ k = 16 ^ (k + 1) from by
        rw [pow_succ, Nat.mul_comm]]
      rfl
    · simp [hlen]

/-- A successful hex parse is bounded by `16 ^ digits`. -/
lemma parseHex_lt :
    ∀ (cs : List Char) (a v : ℕ),
      cs.foldl Hex.parseHexStep (some a) = some v →
      v < (a + 1) * 16 ^ cs.length := by
  intro cs
  induction cs with
  | nil =>
    intro a v h
    injection h with h
    simp only [List.length_nil, pow_zero, Nat.mul_one]
    omega
  | cons c cs ih =>
    intro a v h
    rw [List.foldl_cons] at h
    cases hv : Hex.hexVal? c with
    | none =>
      rw [parseHexStep_bad a c hv, foldl_parseHexStep_none cs] at h
      exact Option.noConfusion h
    | some d =>
      rw [parseHexStep_some a c d hv] at h
      have hd := hexVal?_lt c d hv
      have hih := ih (a * 16 + d) v h
      calc v < (a * 16 + d + 1) * 16 ^ cs.length := hih
      _ ≤ ((a + 1) * 16) * 16 ^ cs.length := by
          apply Nat.mul_le_mul_right
          omega
      _ = (a + 1) * 16 ^ (c :: cs).length := by
          rw [List.length_cons, pow_succ]
          ring

lemma parseHex_lt_len (cs : List Char) (v : ℕ)
    (h : Hex.parseHex cs = some v) : v < 16 ^ cs.length := by
  have h2 := parseHex_lt cs 0 v h
  simpa using h2

/-- `((1 << 24) | payload).toString(16).slice(1)`: a packed number in
`[2^24, 2^25)` renders as `'1'` followed by exactly six hex digits whose
parse recovers the payload. -/
lemma toHexList_seven (m : ℕ) (hlo : 2 ^ 24 ≤ m) (hhi : m < 2 ^ 25) :
    ∃ out : List Char,
      Hex.toHexList m = Hex.hexChar 1 :: out
      ∧ out.length = 6
      ∧ Hex.parseHex out = some (m - 2 ^ 24) := by
  obtain ⟨rest, hrest, hlen⟩ :=
    toHexList_decomp 6 m (by norm_num at hlo ⊢; omega)
      (by norm_num at hhi ⊢; omega)
  have hdiv : m / 16 ^ 6 = 1 := by
    norm_num at hlo hhi ⊢
    omega
  rw [hdiv] at hrest
  refine ⟨rest, hrest, hlen, ?_⟩
  have hround := parseHex_toHexList m
  rw [hrest, Hex.parseHex, List.foldl_cons,
    parseHexStep_some 0 _ 1 (hexVal?_hexChar 1 (by norm_num))] at hround
  rw [foldl_parseHexStep_shift rest (0 * 16 + 1)] at hround
  cases hu : rest.foldl Hex.parseHexStep (some 0) with
  | none =>
    rw [hu] at hround
    exact Option.noConfusion hround
  | some u =>
    rw [hu] at hround
    simp only [Option.map_some'] at hround
    have hm := Option.some.inj hround
    rw [hlen] at hm
    rw [Hex.parseHex, hu]
    have h6 : (16 : ℕ) ^ 6 = 16777216 := by norm_num
    have h24 : (2 : ℕ) ^ 24 = 16777216 := by norm_num
    rw [h6] at hm
    have hu2 : m - 2 ^ 24 = u := by
      rw [h24]
      omega
    rw [hu2]

/-- The clamp named by the claim (spec side): each channel is forced into
`[0, 255]`. -/
def specClamp (z : ℤ) : ℤ := max 0 (min 255 z)

/-- The nested-conditional clamp of scripts.js equals the spec clamp. -/
lemma specClamp_eq_cond (z : ℤ) :
    (if z < 255 then (if z < 1 then 0 else z) else 255) = specClamp z := by
  unfold specClamp
  split_ifs with h1 h2 <;> omega

lemma specClamp_mem (z : ℤ) : 0 ≤ specClamp z ∧ specClamp z ≤ 255 := by
  unfold specClamp
  constructor
  · exact le_max_left 0 _
  · exact max_le (by omega) (min_le_left 255 z)

/-- The bit-or packing of particles.js equals the additive packing of
scripts.js on byte-sized channels. -/
lemma hexPack_eq (r g b : ℕ) (hr : r < 256) (hg : g < 256) (hb : b < 256) :
    (1 <<< 24) ||| (r <<< 16) ||| (g <<< 8) ||| b
      = 2 ^ 24 + r * 2 ^ 16 + g * 2 ^ 8 + b := by
  have e1 : (1 <<< 24) ||| (r <<< 16) = 2 ^ 24 + r * 2 ^ 16 := by
    have hlt : r * 2 ^ 16 < 2 ^ 24 := by nlinarith
    have h := (Nat.mul_add_lt_is_or (a := 1) hlt).symm
    simp only [Nat.shiftLeft_eq]
    rw [Nat.one_mul]
    rw [Nat.mul_one] at h
    rw [Nat.mul_comm r (2 ^ 16)]
    rw [Nat.mul_comm r (2 ^ 16)] at h
    exact h
  have e2 : (2 ^ 24 + r * 2 ^ 16) ||| (g <<< 8)
      = 2 ^ 24 + r * 2 ^ 16 + g * 2 ^ 8 := by
    have hlt : g * 2 ^ 8 < 2 ^ 16 := by nlinarith
    have h := (Nat.mul_add_lt_is_or (a := 2 ^ 8 + r) hlt).symm
    have hx : 2 ^ 16 * (2 ^ 8 + r) = 2 ^ 24 + r * 2 ^ 16 := by ring
    rw [hx] at h
    rw [Nat.shiftLeft_eq, Nat.mul_comm g (2 ^ 8)]
    rw [Nat.mul_comm g (2 ^ 8)] at h
    exact h
  have e3 : (2 ^ 24 + r * 2 ^ 16 + g * 2 ^ 8) ||| b
      = 2 ^ 24 + r * 2 ^ 16 + g * 2 ^ 8 + b := by
    have hlt : b < 2 ^ 8 := hb
    have h := (Nat.mul_add_lt_is_or (a := 2 ^ 16 + r * 2 ^ 8 + g) hlt).symm
    have hx : 2 ^ 8 * (2 ^ 16 + r * 2 ^ 8 + g)
        = 2 ^ 24 + r * 2 ^ 16 + g * 2 ^ 8 := by
      ring
    rw [hx] at h
    exact h
  rw [e1, e2, e3]

/-- C10: for every input of the form `'#'` plus six hex digits and every
integer percent, both `shadeColor` variants return `'#'` plus exactly six
hex digits; the three RGB channels of the result are the input channels
shifted by `Math.round(2.55 * percent)` and independently clamped to
`[0, 255]`, re-packed without overflow into adjacent channels (the parse
of the output digits decomposes exactly into the clamped channels at
their byte positions); and the two variants agree. -/
theorem shade_color_channels (color : String) (ds : List Char) (num : ℕ)
    (percent : ℤ) (hdata : color.data = '#' :: ds) (hlen : ds.length = 6)
    (hparse : Hex.parseHex ds = some num) :
    ∃ out : List Char,
      (Cosmic.shadeColor color percent).data = '#' :: out
      ∧ Scripts.shadeColor color percent = Cosmic.shadeColor color percent
      ∧ out.length = 6
      ∧ Hex.parseHex out = some
          ((specClamp (((num >>> 16 : ℕ) : ℤ)
              + Hex.jsRound ((2.55 : ℚ) * (percent : ℚ)))).toNat * 2 ^ 16
            + (specClamp ((((num >>> 8) &&& 0xff : ℕ) : ℤ)
              + Hex.jsRound ((2.55 : ℚ) * (percent : ℚ)))).toNat * 2 ^ 8
            + (specClamp (((num &&& 0xff : ℕ) : ℤ)
              + Hex.jsRound ((2.55 : ℚ) * (percent : ℚ)))).toNat)
      ∧ (∀ z : ℤ, 0 ≤ specClamp z ∧ specClamp z ≤ 255) := by
  have hds : color.data.drop 1 = ds := by
    rw [hdata]
    simp
  have hrm : Hex.removeFirstHash color.data = ds := by
    rw [hdata]
    simp [Hex.removeFirstHash]
  set A := Hex.jsRound ((2.55 : ℚ) * (percent : ℚ)) with hA
  set R := specClamp (((num >>> 16 : ℕ) : ℤ) + A) with hR
  set G := specClamp ((((num >>> 8) &&& 0xff : ℕ) : ℤ) + A) with hG
  set B := specClamp (((num &&& 0xff : ℕ) : ℤ) + A) with hB
  have hR' : R = max (0 : ℤ) (min (255 : ℤ)
      (((num >>> 16 : ℕ) : ℤ) + A)) := hR
  have hG' : G = max (0 : ℤ) (min (255 : ℤ)
      ((((num >>> 8) &&& 0xff : ℕ) : ℤ) + A)) := hG
  have hB' : B = max (0 : ℤ) (min (255 : ℤ)
      (((num &&& 0xff : ℕ) : ℤ) + A)) := hB
  have hRm := specClamp_mem (((num >>> 16 : ℕ) : ℤ) + A)
  have hGm := specClamp_mem ((((num >>> 8) &&& 0xff : ℕ) : ℤ) + A)
  have hBm := specClamp_mem (((num &&& 0xff : ℕ) : ℤ) + A)
  rw [← hR] at hRm
  rw [← hG] at hGm
  rw [← hB] at hBm
  have hRb : R.toNat ≤ 255 := by omega
  have hGb : G.toNat ≤ 255 := by omega
  have hBb : B.toNat ≤ 255 := by omega
  have hpackC :
      (1 <<< 24) ||| (R.toNat <<< 16) ||| (G.toNat <<< 8) ||| B.toNat
        = 2 ^ 24 + R.toNat * 2 ^ 16 + G.toNat * 2 ^ 8 + B.toNat :=
    hexPack_eq R.toNat G.toNat B.toNat (by omega) (by omega) (by omega)
  have hcos : Cosmic.shadeColor color percent
      = "#" ++ String.mk ((Hex.toHexList
          (2 ^ 24 + R.toNat * 2 ^ 16 + G.toNat * 2 ^ 8
            + B.toNat)).drop 1) := by
    simp only [Cosmic.shadeColor, hds, hparse, Option.getD_some]
    rw [← hA, ← hR', ← hG', ← hB', hpackC]
  have hnum_eq : 0x1000000 + R.toNat * 0x10000 + G.toNat * 0x100 + B.toNat
      = 2 ^ 24 + R.toNat * 2 ^ 16 + G.toNat * 2 ^ 8 + B.toNat := by
    norm_num
  have hscr : Scripts.shadeColor color percent
      = "#" ++ String.mk ((Hex.toHexList
          (2 ^ 24 + R.toNat * 2 ^ 16 + G.toNat * 2 ^ 8
            + B.toNat)).drop 1) := by
    simp only [Scripts.shadeColor, hrm, hparse, Option.getD_some]
    rw [← hA]
    rw [specClamp_eq_cond (((num >>> 16 : ℕ) : ℤ) + A),
      specClamp_eq_cond ((((num >>> 8) &&& 0xff : ℕ) : ℤ) + A),
      specClamp_eq_cond (((num &&& 0xff : ℕ) : ℤ) + A)]
    rw [← hR, ← hG, ← hB, hnum_eq]
  obtain ⟨out, hhex, hlen6, hpout⟩ := toHexList_seven
      (2 ^ 24 + R.toNat * 2 ^ 16 + G.toNat * 2 ^ 8 + B.toNat)
      (by omega)
      (by norm_num; omega)
  refine ⟨out, ?_, ?_, hlen6, ?_, fun z => specClamp_mem z⟩
  · rw [hcos, hhex]
    simp
  · rw [hscr, hcos]
  · rw [hpout]
    have hsub : 2 ^ 24 + R.toNat * 2 ^ 16 + G.toNat * 2 ^ 8 + B.toNat
        - 2 ^ 24
        = R.toNat * 2 ^ 16 + G.toNat * 2 ^ 8 + B.toNat := by
      omega
    rw [hsub]

/-- C10 witness: the shading contract applied to the concrete color
`#60a5fa` darkened by 20 percent. -/
theorem shade_color_channels_witness :
    ("#60a5fa").data = '#' :: ['6', '0', 'a', '5', 'f', 'a']
    ∧ (['6', '0', 'a', '5', 'f', 'a'] : List Char).length = 6
    ∧ Hex.parseHex ['6', '0', 'a', '5', 'f', 'a'] = some 6333946
    ∧ ∃ out : List Char,
        (Cosmic.shadeColor ("#60a5fa") (-20)).data = '#' :: out
        ∧ Scripts.shadeColor ("#60a5fa") (-20)
            = Cosmic.shadeColor ("#60a5fa") (-20)
        ∧ out.length = 6
        ∧ Hex.parseHex out = some
            ((specClamp (((6333946 >>> 16 : ℕ) : ℤ)
                + Hex.jsRound ((2.55 : ℚ) * (((-20 : ℤ) : ℚ))))).toNat
                * 2 ^ 16
              + (specClamp ((((6333946 >>> 8) &&& 0xff : ℕ) : ℤ)
                + Hex.jsRound ((2.55 : ℚ) * (((-20 : ℤ) : ℚ))))).toNat
                * 2 ^ 8
              + (specClamp (((6333946 &&& 0xff : ℕ) : ℤ)
                + Hex.jsRound ((2.55 : ℚ) * (((-20 : ℤ) : ℚ))))).toNat)
        ∧ (∀ z : ℤ, 0 ≤ specClamp z ∧ specClamp z ≤ 255) :=
  ⟨rfl, rfl, by decide,
   shade_color_channels ("#60a5fa") ['6', '0', 'a', '5', 'f', 'a']
     6333946 (-20) rfl rfl (by decide)⟩

end Clientes
